import Mathlib

/-!
# SimpleVideoPlayer (xbmc/guilib/GUIVideoBackground.cpp)

A shallow embedding of the looping background video player:

* the aspect-fit geometry computed by `openVideoFile` (lines 82-116),
* the player operations `openVideoFile`, `Start`, `Stop`, `CloseFile` and `Render`.

Modelling conventions.

* C `int` values are `Int` (screen-sized quantities; no overflow is involved).
* The `double` values of the rescale block of `openVideoFile` (lines 99-105) are IEEE 754
  binary64 values, held as the rationals they denote: each division and multiplication is
  the exact result rounded to the nearest binary64 value, ties to even (`roundDouble`).  The
  conversion of an `int` to `double` is exact.  Overflow to infinity is not modelled: the
  operands are quotients and products of `int` values.
* The `double` values of the frame clock (`m_nextFrameTime`, `m_millisecondsPerFrame`, the
  clock value) are exact rationals.
* The cast `(int) x` truncates toward zero (`truncToInt`), integer `/` is C division
  (`Int.tdiv`).
* The decoder (`FFmpegVideoDecoder`) is an interface over an arbitrary decoder state; the
  host services (`CSpecialProtocol::TranslatePath`, the overscan rectangle of
  `g_graphicsContext.GetResInfo()`, texture allocation) are parameters.
* Every call made to a collaborator is appended to the ghost trace `calls` of the player, so
  that "how many frames were requested" is a property of the trace.
* The `while ( true )` loop of `Render` is run with a fuel bound; `none` means the loop has
  not left within the bound.
* `1.0 / fps` is taken for a non-zero `fps`.
-/

namespace GUIVideoBackground

/-! ## Geometry -/

/-- The C cast `(int) x` of a `double`: truncation toward zero. -/
def truncToInt (x : ℚ) : Int := if 0 ≤ x then ⌊x⌋ else ⌈x⌉

/-- The members written by the fit block of `openVideoFile`. -/
structure Fit where
  m_videoWidth : Int
  m_videoHeight : Int
  m_displayLeft : Int
  m_displayTop : Int
  m_displayRight : Int
  m_displayBottom : Int
deriving DecidableEq, Repr

/-- Rounding of a rational to the nearest integer, ties to the even one. -/
def roundHalfEven (q : ℚ) : Int :=
  if q - ⌊q⌋ < 1 / 2 then ⌊q⌋
  else if 1 / 2 < q - ⌊q⌋ then ⌊q⌋ + 1
  else if ⌊q⌋ % 2 = 0 then ⌊q⌋ else ⌊q⌋ + 1

/-- The binary64 value nearest to `x` (round to nearest, ties to even): with
`e = ⌊log₂ |x|⌋`, not below the least normal exponent -1022, `x` is rounded to a multiple of
`2 ^ (e - 52)`. -/
def roundDouble (x : ℚ) : ℚ :=
  if x = 0 then 0
  else
    (roundHalfEven (x / (2 : ℚ) ^ (max (Int.log 2 |x|) (-1022) - 52)) : ℚ)
      * (2 : ℚ) ^ (max (Int.log 2 |x|) (-1022) - 52)

/-- Working dimensions after the rescale block of `openVideoFile` (lines 88-106):
`vw`, `vh` are the decoded dimensions, `screen_width`, `screen_height` the region size.
The quotients and products are binary64 operations. -/
def rescale (vw vh screen_width screen_height : Int) : Int × Int :=
  if (vw > 0 ∧ vh > 0)
      ∧ ((vw > screen_width ∨ vh > screen_height)
        ∨ (vw < screen_width ∧ vh < screen_height)) then
    let scale_width : ℚ := roundDouble ((screen_width : ℚ) / (vw : ℚ))
    let scale_height : ℚ := roundDouble ((screen_height : ℚ) / (vh : ℚ))
    let scale : ℚ := if scale_width < scale_height then scale_width else scale_height
    (truncToInt (roundDouble ((vw : ℚ) * scale)), truncToInt (roundDouble ((vh : ℚ) * scale)))
  else
    (vw, vh)

/-- The fit block of `openVideoFile` (lines 82-116): `vw`, `vh` are the decoded dimensions,
`left top right bottom` the overscan rectangle of the current resolution. -/
def fitToScreen (vw vh left top right bottom : Int) : Fit :=
  let screen_width := right - left
  let screen_height := bottom - top
  let w := (rescale vw vh screen_width screen_height).1
  let h := (rescale vw vh screen_width screen_height).2
  if w < screen_width ∨ h < screen_height then
    let displayLeft := (screen_width - w).tdiv 2
    let displayTop := (screen_height - h).tdiv 2
    { m_videoWidth := w, m_videoHeight := h,
      m_displayLeft := displayLeft, m_displayTop := displayTop,
      m_displayRight := right - displayLeft, m_displayBottom := bottom - displayTop }
  else
    { m_videoWidth := w, m_videoHeight := h,
      m_displayLeft := left, m_displayTop := top,
      m_displayRight := right, m_displayBottom := bottom }

/-- The rescaled working dimensions as the specification words them:
`floor(sourceWidth*scale)`, `floor(sourceHeight*scale)` with
`scale = min(screenW/sourceWidth, screenH/sourceHeight)`. -/
def specRescale (sourceWidth sourceHeight screenW screenH : Int) : Int × Int :=
  let scale : ℚ := min ((screenW : ℚ) / sourceWidth) ((screenH : ℚ) / sourceHeight)
  (⌊(sourceWidth : ℚ) * scale⌋, ⌊(sourceHeight : ℚ) * scale⌋)

/-! ## Collaborators -/

/-- The pixel sink `CTexture`: its allocated size and the index of the frame last decoded
into it (`none` while nothing has been decoded). -/
structure CTexture where
  width : Int
  height : Int
  frame : Option Nat
deriving DecidableEq, Repr

/-- Calls made to the decoder and to the texture/draw primitives, in program order. -/
inductive Call where
  | decoderOpen (path : String) (ok : Bool)
  | decoderClose
  | nextFrame (ok : Bool)
  | seek (pos : ℚ)
  | newTexture (width height : Int)
  | deleteTexture
  | drawQuad (left top right bottom : Int) (frame : Option Nat)
deriving DecidableEq

/-- The decoder capability used by the player, over a decoder state `σ`.
`nextFrame` returns `some i` when it decoded frame `i` into the texture (C++ `true`)
and `none` when it returned `false`. -/
structure FFmpegVideoDecoder (σ : Type) where
  openFile : String → σ → Bool × σ
  close : σ → σ
  getWidth : σ → Int
  getHeight : σ → Int
  getFramesPerSecond : σ → ℚ
  getLastFrameTime : σ → ℚ
  nextFrame : σ → Option Nat × σ
  seek : ℚ → σ → σ

/-- Host services read by the player. -/
structure Host where
  TranslatePath : String → String
  OverscanLeft : Int
  OverscanTop : Int
  OverscanRight : Int
  OverscanBottom : Int
  canAllocate : Int → Int → Bool

/-! ## Player state and operations -/

/-- The members of `SimpleVideoPlayer`, with the ghost trace `calls`. -/
structure SimpleVideoPlayer (σ : Type) where
  m_decoder : σ
  m_timeFromPrevSong : ℚ
  m_texture : Option CTexture
  m_bIsPlaying : Bool
  m_bHasVideo : Bool
  m_videoWidth : Int
  m_videoHeight : Int
  m_curVideoFile : String
  m_displayLeft : Int
  m_displayTop : Int
  m_displayRight : Int
  m_displayBottom : Int
  m_millisecondsPerFrame : ℚ
  m_nextFrameTime : ℚ
  calls : List Call

variable {σ : Type}

/-- The constructor `SimpleVideoPlayer::SimpleVideoPlayer()`. The members it leaves
uninitialised are given the value 0 (empty string). -/
def SimpleVideoPlayer.create (decoder : σ) : SimpleVideoPlayer σ :=
  { m_decoder := decoder, m_timeFromPrevSong := 0, m_texture := none,
    m_bIsPlaying := false, m_bHasVideo := true,
    m_videoWidth := 0, m_videoHeight := 0, m_curVideoFile := "",
    m_displayLeft := 0, m_displayTop := 0, m_displayRight := 0, m_displayBottom := 0,
    m_millisecondsPerFrame := 0, m_nextFrameTime := 0, calls := [] }

/-- The query `IsPlaying()`. -/
def IsPlaying (p : SimpleVideoPlayer σ) : Bool := p.m_bIsPlaying

/-- The Closed state: no texture allocated and the is-playing flag false. -/
def Closed (p : SimpleVideoPlayer σ) : Prop := p.m_texture = none ∧ p.m_bIsPlaying = false

/-- The method `SimpleVideoPlayer::openVideoFile` (lines 67-128). -/
def openVideoFile (dec : FFmpegVideoDecoder σ) (host : Host) (filename : String)
    (p : SimpleVideoPlayer σ) : Bool × SimpleVideoPlayer σ :=
  let realPath := host.TranslatePath filename
  let r := dec.openFile realPath p.m_decoder
  if r.1 = false then
    (false, { p with m_decoder := r.2, calls := p.calls ++ [Call.decoderOpen realPath false] })
  else
    let fit := fitToScreen (dec.getWidth r.2) (dec.getHeight r.2)
      host.OverscanLeft host.OverscanTop host.OverscanRight host.OverscanBottom
    (true, { p with
      m_decoder := r.2
      m_videoWidth := fit.m_videoWidth
      m_videoHeight := fit.m_videoHeight
      m_curVideoFile := filename
      m_displayLeft := fit.m_displayLeft
      m_displayTop := fit.m_displayTop
      m_displayRight := fit.m_displayRight
      m_displayBottom := fit.m_displayBottom
      m_millisecondsPerFrame := 1 / dec.getFramesPerSecond r.2
      calls := p.calls ++ [Call.decoderOpen realPath true] })

/-- The texture allocation at the end of `Start` (lines 195-206); `host.canAllocate` says
whether `new CTexture` yields a texture (the code tests the result for null). -/
def allocateTexture (host : Host) (p : SimpleVideoPlayer σ) : Bool × SimpleVideoPlayer σ :=
  if host.canAllocate p.m_videoWidth p.m_videoHeight = false then
    (false, { p with m_texture := none })
  else
    (true, { p with
      m_texture := some { width := p.m_videoWidth, height := p.m_videoHeight, frame := none }
      m_bIsPlaying := true
      m_nextFrameTime := 0
      calls := p.calls ++ [Call.newTexture p.m_videoWidth p.m_videoHeight] })

/-- The method `SimpleVideoPlayer::Start` (lines 177-207). -/
def Start (dec : FFmpegVideoDecoder σ) (host : Host) (filename : String)
    (p : SimpleVideoPlayer σ) : Bool × SimpleVideoPlayer σ :=
  if filename ≠ "" then
    let r := openVideoFile dec host filename p
    if r.1 = false then
      (false, r.2)
    else
      allocateTexture host { r.2 with m_timeFromPrevSong := 0 }
  else
    allocateTexture host p

/-- The method `SimpleVideoPlayer::OpenFile` (lines 62-65), given the path of the item. -/
def OpenFile (dec : FFmpegVideoDecoder σ) (host : Host) (path : String)
    (p : SimpleVideoPlayer σ) : Bool × SimpleVideoPlayer σ :=
  Start dec host path p

/-- The method `SimpleVideoPlayer::Stop` (lines 209-217). -/
def Stop (dec : FFmpegVideoDecoder σ) (p : SimpleVideoPlayer σ) : SimpleVideoPlayer σ :=
  { p with
    m_texture := none
    m_timeFromPrevSong := dec.getLastFrameTime p.m_decoder
    m_bIsPlaying := false
    calls := p.calls ++ (if p.m_texture.isSome then [Call.deleteTexture] else []) }

/-- The method `SimpleVideoPlayer::CloseFile` (lines 130-134). -/
def CloseFile (dec : FFmpegVideoDecoder σ) (p : SimpleVideoPlayer σ) : SimpleVideoPlayer σ :=
  let q := Stop dec p
  { q with m_decoder := dec.close q.m_decoder, calls := q.calls ++ [Call.decoderClose] }

/-- The `while ( true )` loop of `Render` (lines 152-163), run for at most `fuel` iterations;
`tex` is the allocated texture the frame is decoded into. -/
def nextFrameLoop (dec : FFmpegVideoDecoder σ) :
    Nat → CTexture → SimpleVideoPlayer σ → Option (SimpleVideoPlayer σ)
  | 0, _, _ => none
  | fuel + 1, tex, p =>
    match dec.nextFrame p.m_decoder with
    | (none, d) =>
      nextFrameLoop dec fuel tex { p with
        m_decoder := dec.seek 0 d
        m_nextFrameTime := 0
        calls := p.calls ++ [Call.nextFrame false, Call.seek 0] }
    | (some i, d) =>
      some { p with
        m_decoder := d
        m_texture := some { tex with frame := some i }
        calls := p.calls ++ [Call.nextFrame true] }

/-- The final `CGUITexture::DrawQuad` of `Render` (lines 171-173). -/
def drawQuad (p : SimpleVideoPlayer σ) : SimpleVideoPlayer σ :=
  { p with calls := p.calls ++ [Call.drawQuad p.m_displayLeft p.m_displayTop
      p.m_displayRight p.m_displayBottom (p.m_texture.bind (fun t => t.frame))] }

/-- The method `SimpleVideoPlayer::Render` (lines 136-175) at the clock value `now`
returned by `XbmcThreads::SystemClockMillis()`.  The rectangle arguments of the method are
only logged and are left out. -/
def Render (dec : FFmpegVideoDecoder σ) (fuel : Nat) (now : Nat)
    (p : SimpleVideoPlayer σ) : Option (SimpleVideoPlayer σ) :=
  match p.m_texture with
  | none => some p
  | some tex =>
    let current : ℚ := (now : ℚ)
    if current ≥ p.m_nextFrameTime then
      (nextFrameLoop dec fuel tex { p with
        m_nextFrameTime := current + p.m_millisecondsPerFrame - (current - p.m_nextFrameTime) }).map
        drawQuad
    else
      some (drawQuad p)

/-- Consecutive `Render` ticks at the clock values of `nows`. -/
def renderTicks (dec : FFmpegVideoDecoder σ) (fuel : Nat) :
    List Nat → SimpleVideoPlayer σ → Option (SimpleVideoPlayer σ)
  | [], p => some p
  | now :: rest, p => (Render dec fuel now p).bind (renderTicks dec fuel rest)

/-! ## Reading the trace -/

/-- A frame request `nextFrame( m_texture )` to the decoder. -/
def Call.isNextFrame : Call → Bool
  | Call.nextFrame _ => true
  | _ => false

/-- A `seek` request to the decoder. -/
def Call.isSeek : Call → Bool
  | Call.seek _ => true
  | _ => false

/-- A `CGUITexture::DrawQuad` call. -/
def Call.isDraw : Call → Bool
  | Call.drawQuad _ _ _ _ _ => true
  | _ => false

/-- An allocation or release of the texture. -/
def Call.isTextureLifetime : Call → Bool
  | Call.newTexture _ _ => true
  | Call.deleteTexture => true
  | _ => false

/-- Number of frame requests made to the decoder so far. -/
def frameRequests (p : SimpleVideoPlayer σ) : Nat := p.calls.countP Call.isNextFrame

/-- Every tick of `nows` comes at a clock value at or after the next-frame-due time current
at that tick. -/
def ticksDue (dec : FFmpegVideoDecoder σ) (fuel : Nat) :
    List Nat → SimpleVideoPlayer σ → Bool
  | [], _ => true
  | now :: rest, p =>
    decide (p.m_nextFrameTime ≤ (now : ℚ)) &&
      match Render dec fuel now p with
      | some q => ticksDue dec fuel rest q
      | none => true

/-- The decoder in state `d` fails its first `k` frame requests, each failure being followed
by `seek(0)`, and produces a frame at request `k + 1`. -/
def producesFrameAfter (dec : FFmpegVideoDecoder σ) : Nat → σ → Bool
  | 0, d => (dec.nextFrame d).1.isSome
  | k + 1, d =>
    (dec.nextFrame d).1.isNone && producesFrameAfter dec k (dec.seek 0 (dec.nextFrame d).2)

/-! ## Test doubles -/

/-- State of the decoder test double: whether a stream is open and the index of the next
frame to deliver. -/
structure StubState where
  isOpen : Bool
  pos : Nat
deriving DecidableEq, Repr

/-- Decoder test double: a stream of `width x height` pixels at `fps` frames per second that
has a frame at index `i` exactly when `hasFrame i`; the paths it can open are those with
`accept path`.  Opening and seeking to 0 restart at frame index 0. -/
def stubDecoder (hasFrame : Nat → Bool) (width height : Int) (fps : ℚ)
    (accept : String → Bool) : FFmpegVideoDecoder StubState where
  openFile path s := if accept path then (true, ⟨true, 0⟩) else (false, ⟨false, s.pos⟩)
  close _ := ⟨false, 0⟩
  getWidth _ := width
  getHeight _ := height
  getFramesPerSecond _ := fps
  getLastFrameTime s := s.pos / fps
  nextFrame s := if hasFrame s.pos then (some s.pos, { s with pos := s.pos + 1 }) else (none, s)
  seek t s := { s with pos := Int.toNat ⌊t * fps⌋ }

/-- Decoder test double that yields exactly `N` frames and then reports end-of-stream. -/
def loopDecoder (N : Nat) (width height : Int) (fps : ℚ) (accept : String → Bool) :
    FFmpegVideoDecoder StubState :=
  stubDecoder (fun i => decide (i < N)) width height fps accept

/-- Decoder test double at 25 frames per second whose only readable file is `bg.mp4`. -/
def bgDecoder (hasFrame : Nat → Bool) (width height : Int) : FFmpegVideoDecoder StubState :=
  stubDecoder hasFrame width height 25 (fun path => path == "bg.mp4")

/-- Host with identity path translation, overscan rectangle (0,0,1280,720) and a texture
allocator that always succeeds. -/
def testHost : Host :=
  { TranslatePath := fun path => path, OverscanLeft := 0, OverscanTop := 0,
    OverscanRight := 1280, OverscanBottom := 720, canAllocate := fun _ _ => true }

/-- The player after `Start("bg.mp4")` on a freshly constructed player, for a 640x360 stream
at 25 frames per second. -/
def playing (hasFrame : Nat → Bool) : SimpleVideoPlayer StubState :=
  (Start (bgDecoder hasFrame 640 360) testHost "bg.mp4" (SimpleVideoPlayer.create ⟨false, 0⟩)).2

/-! ## Geometry: auxiliary facts -/

theorem truncToInt_eq {x : ℚ} (n : Int) (h0 : 0 ≤ x) (h1 : (n : ℚ) ≤ x) (h2 : x < (n : ℚ) + 1) :
    truncToInt x = n := by
  unfold truncToInt
  rw [if_pos h0]
  exact Int.floor_eq_iff.mpr ⟨h1, h2⟩

/-- Evaluation of `roundDouble` at a positive `x` with `2 ^ e ≤ x < 2 ^ (e + 1)`. -/
theorem roundDouble_eq {x y : ℚ} (e m : ℤ) (hx : 0 < x) (he : -1022 ≤ e)
    (hlo : (2 : ℚ) ^ e ≤ x) (hhi : x < (2 : ℚ) ^ (e + 1))
    (hm : roundHalfEven (x / (2 : ℚ) ^ (e - 52)) = m)
    (hy : (m : ℚ) * (2 : ℚ) ^ (e - 52) = y) :
    roundDouble x = y := by
  have hlog : Int.log 2 |x| = e := by
    rw [abs_of_pos hx]
    apply le_antisymm
    · have h := (Int.lt_zpow_iff_log_lt (b := 2) (by norm_num) hx (x := e + 1)).mp
        (by exact_mod_cast hhi)
      omega
    · exact (Int.zpow_le_iff_le_log (b := 2) (by norm_num) hx).mp (by exact_mod_cast hlo)
  unfold roundDouble
  rw [if_neg hx.ne', hlog, max_eq_left he, hm, hy]

/-- C division by 2 never rounds away from zero. -/
theorem two_mul_tdiv_two_le (a : Int) : 2 * a.tdiv 2 ≤ max a 0 := by
  rcases le_or_lt 0 a with h | h
  · rw [Int.tdiv_eq_ediv h (by norm_num), max_eq_left h]
    omega
  · have hn : a.tdiv 2 = -((-a).tdiv 2) := by rw [Int.neg_tdiv, neg_neg]
    have h0 : 0 ≤ (-a).tdiv 2 := Int.tdiv_nonneg (by omega) (by norm_num)
    rw [max_eq_right h.le, hn]
    omega

/-- When the rescale condition is false the decoded dimensions are kept. -/
theorem rescale_of_fits {vw vh sw sh : Int}
    (h : ¬ ((vw > 0 ∧ vh > 0) ∧ ((vw > sw ∨ vh > sh) ∨ (vw < sw ∧ vh < sh)))) :
    rescale vw vh sw sh = (vw, vh) := by
  unfold rescale
  rw [if_neg h]

/-- The formula of the specification is the largest fit. -/
theorem specRescale_largest {vw vh sw sh : Int} (hw : 0 < vw) (hh : 0 < vh)
    (hsw : 0 < sw) (hsh : 0 < sh) :
    (specRescale vw vh sw sh).1 ≤ sw ∧ (specRescale vw vh sw sh).2 ≤ sh
      ∧ ((specRescale vw vh sw sh).1 = sw ∨ (specRescale vw vh sw sh).2 = sh) := by
  have hwq : (0 : ℚ) < vw := by exact_mod_cast hw
  have hhq : (0 : ℚ) < vh := by exact_mod_cast hh
  have hswq : (0 : ℚ) < sw := by exact_mod_cast hsw
  have hshq : (0 : ℚ) < sh := by exact_mod_cast hsh
  unfold specRescale
  simp only
  rcases le_total ((sw : ℚ) / vw) ((sh : ℚ) / vh) with hle | hle
  · rw [min_eq_left hle]
    have e1 : (vw : ℚ) * ((sw : ℚ) / vw) = sw := by field_simp
    have e2 : (vh : ℚ) * ((sw : ℚ) / vw) ≤ sh := by
      calc (vh : ℚ) * ((sw : ℚ) / vw) ≤ vh * ((sh : ℚ) / vh) :=
            mul_le_mul_of_nonneg_left hle hhq.le
        _ = sh := by field_simp
    rw [e1]
    exact ⟨by simp, Int.cast_le.mp (le_trans (Int.floor_le _) e2), Or.inl (by simp)⟩
  · rw [min_eq_right hle]
    have e1 : (vh : ℚ) * ((sh : ℚ) / vh) = sh := by field_simp
    have e2 : (vw : ℚ) * ((sh : ℚ) / vh) ≤ sw := by
      calc (vw : ℚ) * ((sh : ℚ) / vh) ≤ vw * ((sw : ℚ) / vw) :=
            mul_le_mul_of_nonneg_left hle hwq.le
        _ = sw := by field_simp
    rw [e1]
    exact ⟨Int.cast_le.mp (le_trans (Int.floor_le _) e2), by simp, Or.inr (by simp)⟩

theorem fitToScreen_videoWidth (vw vh l t r b : Int) :
    (fitToScreen vw vh l t r b).m_videoWidth = (rescale vw vh (r - l) (b - t)).1 := by
  unfold fitToScreen
  simp only
  split <;> rfl

theorem fitToScreen_videoHeight (vw vh l t r b : Int) :
    (fitToScreen vw vh l t r b).m_videoHeight = (rescale vw vh (r - l) (b - t)).2 := by
  unfold fitToScreen
  simp only
  split <;> rfl

/-- The centering branch (line 109 true). -/
theorem fitToScreen_centered {vw vh l t r b : Int}
    (h : (rescale vw vh (r - l) (b - t)).1 < r - l
      ∨ (rescale vw vh (r - l) (b - t)).2 < b - t) :
    fitToScreen vw vh l t r b =
      { m_videoWidth := (rescale vw vh (r - l) (b - t)).1,
        m_videoHeight := (rescale vw vh (r - l) (b - t)).2,
        m_displayLeft := (r - l - (rescale vw vh (r - l) (b - t)).1).tdiv 2,
        m_displayTop := (b - t - (rescale vw vh (r - l) (b - t)).2).tdiv 2,
        m_displayRight := r - (r - l - (rescale vw vh (r - l) (b - t)).1).tdiv 2,
        m_displayBottom := b - (b - t - (rescale vw vh (r - l) (b - t)).2).tdiv 2 } := by
  unfold fitToScreen
  simp only
  rw [if_pos h]

/-- The branch without centering (line 109 false). -/
theorem fitToScreen_full {vw vh l t r b : Int}
    (h : ¬ ((rescale vw vh (r - l) (b - t)).1 < r - l
      ∨ (rescale vw vh (r - l) (b - t)).2 < b - t)) :
    fitToScreen vw vh l t r b =
      { m_videoWidth := (rescale vw vh (r - l) (b - t)).1,
        m_videoHeight := (rescale vw vh (r - l) (b - t)).2,
        m_displayLeft := l, m_displayTop := t, m_displayRight := r, m_displayBottom := b } := by
  unfold fitToScreen
  simp only
  rw [if_neg h]

/-- A successful `openVideoFile` stores exactly the result of `fitToScreen` on the dimensions
reported by the decoder and the overscan rectangle of the host. -/
theorem openVideoFile_geometry (dec : FFmpegVideoDecoder σ) (host : Host) (filename : String)
    (p : SimpleVideoPlayer σ)
    (hopen : (dec.openFile (host.TranslatePath filename) p.m_decoder).1 = true) :
    (openVideoFile dec host filename p).1 = true
      ∧ ({ m_videoWidth := (openVideoFile dec host filename p).2.m_videoWidth,
           m_videoHeight := (openVideoFile dec host filename p).2.m_videoHeight,
           m_displayLeft := (openVideoFile dec host filename p).2.m_displayLeft,
           m_displayTop := (openVideoFile dec host filename p).2.m_displayTop,
           m_displayRight := (openVideoFile dec host filename p).2.m_displayRight,
           m_displayBottom := (openVideoFile dec host filename p).2.m_displayBottom } : Fit)
        = fitToScreen
            (dec.getWidth (dec.openFile (host.TranslatePath filename) p.m_decoder).2)
            (dec.getHeight (dec.openFile (host.TranslatePath filename) p.m_decoder).2)
            host.OverscanLeft host.OverscanTop host.OverscanRight host.OverscanBottom := by
  simp [openVideoFile, hopen]

/-! ## Geometry: the fit at concrete inputs

Each binary64 operation is evaluated with `roundDouble_eq`, from the exponent and the rounded
significand of its result. -/

theorem fit_800_600_rescale : rescale 800 600 1000 800 = (1000, 750) := by
  have ha : roundDouble (((1000 : Int) : ℚ) / ((800 : Int) : ℚ)) = 5 / 4 := by
    norm_num
    exact roundDouble_eq (0) 5629499534213120 (by norm_num) (by norm_num) (by norm_num) (by norm_num)
      (by simp only [roundHalfEven]; norm_num) (by norm_num)
  have hb : roundDouble (((800 : Int) : ℚ) / ((600 : Int) : ℚ)) = 6004799503160661 / 4503599627370496 := by
    norm_num
    exact roundDouble_eq (0) 6004799503160661 (by norm_num) (by norm_num) (by norm_num) (by norm_num)
      (by simp only [roundHalfEven]; norm_num) (by norm_num)
  have hs : (if (5 / 4 : ℚ) < 6004799503160661 / 4503599627370496 then (5 / 4 : ℚ) else 6004799503160661 / 4503599627370496) = 5 / 4 := by
    norm_num
  have hw : roundDouble (((800 : Int) : ℚ) * (5 / 4)) = 1000 := by
    norm_num
    exact roundDouble_eq (9) 8796093022208000 (by norm_num) (by norm_num) (by norm_num) (by norm_num)
      (by simp only [roundHalfEven]; norm_num) (by norm_num)
  have hh : roundDouble (((600 : Int) : ℚ) * (5 / 4)) = 750 := by
    norm_num
    exact roundDouble_eq (9) 6597069766656000 (by norm_num) (by norm_num) (by norm_num) (by norm_num)
      (by simp only [roundHalfEven]; norm_num) (by norm_num)
  unfold rescale
  rw [if_pos (by decide)]
  simp only [ha, hb, hs, hw, hh]
  rw [truncToInt_eq (1000) (by norm_num) (by norm_num) (by norm_num),
    truncToInt_eq (750) (by norm_num) (by norm_num) (by norm_num)]

theorem fit_800_600 : fitToScreen 800 600 0 0 1000 800
    = { m_videoWidth := 1000, m_videoHeight := 750, m_displayLeft := 0,
        m_displayTop := 25, m_displayRight := 1000, m_displayBottom := 775 } := by
  have hr : rescale 800 600 (1000 - 0) (800 - 0) = (1000, 750) := fit_800_600_rescale
  unfold fitToScreen
  simp only [hr]
  decide

theorem fit_854_480_rescale : rescale 854 480 1920 1080 = (1919, 1079) := by
  have ha : roundDouble (((1920 : Int) : ℚ) / ((854 : Int) : ℚ)) = 2531297214447117 / 1125899906842624 := by
    norm_num
    exact roundDouble_eq (1) 5062594428894234 (by norm_num) (by norm_num) (by norm_num) (by norm_num)
      (by simp only [roundHalfEven]; norm_num) (by norm_num)
  have hb : roundDouble (((1080 : Int) : ℚ) / ((480 : Int) : ℚ)) = 9 / 4 := by
    norm_num
    exact roundDouble_eq (1) 5066549580791808 (by norm_num) (by norm_num) (by norm_num) (by norm_num)
      (by simp only [roundHalfEven]; norm_num) (by norm_num)
  have hs : (if (2531297214447117 / 1125899906842624 : ℚ) < 9 / 4 then (2531297214447117 / 1125899906842624 : ℚ) else 9 / 4) = 2531297214447117 / 1125899906842624 := by
    norm_num
  have hw : roundDouble (((854 : Int) : ℚ) * (2531297214447117 / 1125899906842624)) = 8444249301319679 / 4398046511104 := by
    norm_num
    exact roundDouble_eq (10) 8444249301319679 (by norm_num) (by norm_num) (by norm_num) (by norm_num)
      (by simp only [roundHalfEven]; norm_num) (by norm_num)
  have hh : roundDouble (((480 : Int) : ℚ) * (2531297214447117 / 1125899906842624)) = 593272784636043 / 549755813888 := by
    norm_num
    exact roundDouble_eq (10) 4746182277088344 (by norm_num) (by norm_num) (by norm_num) (by norm_num)
      (by simp only [roundHalfEven]; norm_num) (by norm_num)
  unfold rescale
  rw [if_pos (by decide)]
  simp only [ha, hb, hs, hw, hh]
  rw [truncToInt_eq (1919) (by norm_num) (by norm_num) (by norm_num),
    truncToInt_eq (1079) (by norm_num) (by norm_num) (by norm_num)]

/-- A rounding case: `854 * scale` lands just below 1920 and is truncated to 1919. -/
theorem fit_854_480 : fitToScreen 854 480 0 0 1920 1080
    = { m_videoWidth := 1919, m_videoHeight := 1079, m_displayLeft := 0,
        m_displayTop := 0, m_displayRight := 1920, m_displayBottom := 1080 } := by
  have hr : rescale 854 480 (1920 - 0) (1080 - 0) = (1919, 1079) := fit_854_480_rescale
  unfold fitToScreen
  simp only [hr]
  decide

theorem fit_1280_720_rescale : rescale 1280 720 1880 1060 = (1880, 1057) := by
  have ha : roundDouble (((1880 : Int) : ℚ) / ((1280 : Int) : ℚ)) = 47 / 32 := by
    norm_num
    exact roundDouble_eq (0) 6614661952700416 (by norm_num) (by norm_num) (by norm_num) (by norm_num)
      (by simp only [roundHalfEven]; norm_num) (by norm_num)
  have hb : roundDouble (((1060 : Int) : ℚ) / ((720 : Int) : ℚ)) = 1657574862851641 / 1125899906842624 := by
    norm_num
    exact roundDouble_eq (0) 6630299451406564 (by norm_num) (by norm_num) (by norm_num) (by norm_num)
      (by simp only [roundHalfEven]; norm_num) (by norm_num)
  have hs : (if (47 / 32 : ℚ) < 1657574862851641 / 1125899906842624 then (47 / 32 : ℚ) else 1657574862851641 / 1125899906842624) = 47 / 32 := by
    norm_num
  have hw : roundDouble (((1280 : Int) : ℚ) * (47 / 32)) = 1880 := by
    norm_num
    exact roundDouble_eq (10) 8268327440875520 (by norm_num) (by norm_num) (by norm_num) (by norm_num)
      (by simp only [roundHalfEven]; norm_num) (by norm_num)
  have hh : roundDouble (((720 : Int) : ℚ) * (47 / 32)) = 2115 / 2 := by
    norm_num
    exact roundDouble_eq (10) 4650934185492480 (by norm_num) (by norm_num) (by norm_num) (by norm_num)
      (by simp only [roundHalfEven]; norm_num) (by norm_num)
  unfold rescale
  rw [if_pos (by decide)]
  simp only [ha, hb, hs, hw, hh]
  rw [truncToInt_eq (1880) (by norm_num) (by norm_num) (by norm_num),
    truncToInt_eq (1057) (by norm_num) (by norm_num) (by norm_num)]

theorem fit_1280_720 : fitToScreen 1280 720 20 10 1900 1070
    = { m_videoWidth := 1880, m_videoHeight := 1057, m_displayLeft := 0,
        m_displayTop := 1, m_displayRight := 1900, m_displayBottom := 1069 } := by
  have hr : rescale 1280 720 (1900 - 20) (1070 - 10) = (1880, 1057) := fit_1280_720_rescale
  unfold fitToScreen
  simp only [hr]
  decide

theorem fit_4000_1_rescale : rescale 4000 1 1000 1000 = (1000, 0) := by
  have ha : roundDouble (((1000 : Int) : ℚ) / ((4000 : Int) : ℚ)) = 1 / 4 := by
    norm_num
    exact roundDouble_eq (-2) 4503599627370496 (by norm_num) (by norm_num) (by norm_num) (by norm_num)
      (by simp only [roundHalfEven]; norm_num) (by norm_num)
  have hb : roundDouble (((1000 : Int) : ℚ) / ((1 : Int) : ℚ)) = 1000 := by
    norm_num
    exact roundDouble_eq (9) 8796093022208000 (by norm_num) (by norm_num) (by norm_num) (by norm_num)
      (by simp only [roundHalfEven]; norm_num) (by norm_num)
  have hs : (if (1 / 4 : ℚ) < 1000 then (1 / 4 : ℚ) else 1000) = 1 / 4 := by
    norm_num
  have hw : roundDouble (((4000 : Int) : ℚ) * (1 / 4)) = 1000 := by
    norm_num
    exact roundDouble_eq (9) 8796093022208000 (by norm_num) (by norm_num) (by norm_num) (by norm_num)
      (by simp only [roundHalfEven]; norm_num) (by norm_num)
  have hh : roundDouble (((1 : Int) : ℚ) * (1 / 4)) = 1 / 4 := by
    norm_num
    exact roundDouble_eq (-2) 4503599627370496 (by norm_num) (by norm_num) (by norm_num) (by norm_num)
      (by simp only [roundHalfEven]; norm_num) (by norm_num)
  unfold rescale
  rw [if_pos (by decide)]
  simp only [ha, hb, hs, hw, hh]
  rw [truncToInt_eq (1000) (by norm_num) (by norm_num) (by norm_num),
    truncToInt_eq (0) (by norm_num) (by norm_num) (by norm_num)]

theorem fit_4000_1 : fitToScreen 4000 1 0 0 1000 1000
    = { m_videoWidth := 1000, m_videoHeight := 0, m_displayLeft := 0,
        m_displayTop := 500, m_displayRight := 1000, m_displayBottom := 500 } := by
  have hr : rescale 4000 1 (1000 - 0) (1000 - 0) = (1000, 0) := fit_4000_1_rescale
  unfold fitToScreen
  simp only [hr]
  decide

theorem fit_4000_2000_rescale : rescale 4000 2000 1000 1000 = (1000, 500) := by
  have ha : roundDouble (((1000 : Int) : ℚ) / ((4000 : Int) : ℚ)) = 1 / 4 := by
    norm_num
    exact roundDouble_eq (-2) 4503599627370496 (by norm_num) (by norm_num) (by norm_num) (by norm_num)
      (by simp only [roundHalfEven]; norm_num) (by norm_num)
  have hb : roundDouble (((1000 : Int) : ℚ) / ((2000 : Int) : ℚ)) = 1 / 2 := by
    norm_num
    exact roundDouble_eq (-1) 4503599627370496 (by norm_num) (by norm_num) (by norm_num) (by norm_num)
      (by simp only [roundHalfEven]; norm_num) (by norm_num)
  have hs : (if (1 / 4 : ℚ) < 1 / 2 then (1 / 4 : ℚ) else 1 / 2) = 1 / 4 := by
    norm_num
  have hw : roundDouble (((4000 : Int) : ℚ) * (1 / 4)) = 1000 := by
    norm_num
    exact roundDouble_eq (9) 8796093022208000 (by norm_num) (by norm_num) (by norm_num) (by norm_num)
      (by simp only [roundHalfEven]; norm_num) (by norm_num)
  have hh : roundDouble (((2000 : Int) : ℚ) * (1 / 4)) = 500 := by
    norm_num
    exact roundDouble_eq (8) 8796093022208000 (by norm_num) (by norm_num) (by norm_num) (by norm_num)
      (by simp only [roundHalfEven]; norm_num) (by norm_num)
  unfold rescale
  rw [if_pos (by decide)]
  simp only [ha, hb, hs, hw, hh]
  rw [truncToInt_eq (1000) (by norm_num) (by norm_num) (by norm_num),
    truncToInt_eq (500) (by norm_num) (by norm_num) (by norm_num)]

theorem fit_4000_2000 : fitToScreen 4000 2000 0 0 1000 1000
    = { m_videoWidth := 1000, m_videoHeight := 500, m_displayLeft := 0,
        m_displayTop := 250, m_displayRight := 1000, m_displayBottom := 750 } := by
  have hr : rescale 4000 2000 (1000 - 0) (1000 - 0) = (1000, 500) := fit_4000_2000_rescale
  unfold fitToScreen
  simp only [hr]
  decide

theorem fit_100_50_rescale : rescale 100 50 1000 500 = (1000, 500) := by
  have ha : roundDouble (((1000 : Int) : ℚ) / ((100 : Int) : ℚ)) = 10 := by
    norm_num
    exact roundDouble_eq (3) 5629499534213120 (by norm_num) (by norm_num) (by norm_num) (by norm_num)
      (by simp only [roundHalfEven]; norm_num) (by norm_num)
  have hb : roundDouble (((500 : Int) : ℚ) / ((50 : Int) : ℚ)) = 10 := by
    norm_num
    exact roundDouble_eq (3) 5629499534213120 (by norm_num) (by norm_num) (by norm_num) (by norm_num)
      (by simp only [roundHalfEven]; norm_num) (by norm_num)
  have hs : (if (10 : ℚ) < 10 then (10 : ℚ) else 10) = 10 := by
    norm_num
  have hw : roundDouble (((100 : Int) : ℚ) * (10)) = 1000 := by
    norm_num
    exact roundDouble_eq (9) 8796093022208000 (by norm_num) (by norm_num) (by norm_num) (by norm_num)
      (by simp only [roundHalfEven]; norm_num) (by norm_num)
  have hh : roundDouble (((50 : Int) : ℚ) * (10)) = 500 := by
    norm_num
    exact roundDouble_eq (8) 8796093022208000 (by norm_num) (by norm_num) (by norm_num) (by norm_num)
      (by simp only [roundHalfEven]; norm_num) (by norm_num)
  unfold rescale
  rw [if_pos (by decide)]
  simp only [ha, hb, hs, hw, hh]
  rw [truncToInt_eq (1000) (by norm_num) (by norm_num) (by norm_num),
    truncToInt_eq (500) (by norm_num) (by norm_num) (by norm_num)]

theorem fit_100_50 : fitToScreen 100 50 0 0 1000 500
    = { m_videoWidth := 1000, m_videoHeight := 500, m_displayLeft := 0,
        m_displayTop := 0, m_displayRight := 1000, m_displayBottom := 500 } := by
  have hr : rescale 100 50 (1000 - 0) (500 - 0) = (1000, 500) := fit_100_50_rescale
  unfold fitToScreen
  simp only [hr]
  decide

theorem fit_640_360_rescale : rescale 640 360 1280 720 = (1280, 720) := by
  have ha : roundDouble (((1280 : Int) : ℚ) / ((640 : Int) : ℚ)) = 2 := by
    norm_num
    exact roundDouble_eq (1) 4503599627370496 (by norm_num) (by norm_num) (by norm_num) (by norm_num)
      (by simp only [roundHalfEven]; norm_num) (by norm_num)
  have hb : roundDouble (((720 : Int) : ℚ) / ((360 : Int) : ℚ)) = 2 := by
    norm_num
    exact roundDouble_eq (1) 4503599627370496 (by norm_num) (by norm_num) (by norm_num) (by norm_num)
      (by simp only [roundHalfEven]; norm_num) (by norm_num)
  have hs : (if (2 : ℚ) < 2 then (2 : ℚ) else 2) = 2 := by
    norm_num
  have hw : roundDouble (((640 : Int) : ℚ) * (2)) = 1280 := by
    norm_num
    exact roundDouble_eq (10) 5629499534213120 (by norm_num) (by norm_num) (by norm_num) (by norm_num)
      (by simp only [roundHalfEven]; norm_num) (by norm_num)
  have hh : roundDouble (((360 : Int) : ℚ) * (2)) = 720 := by
    norm_num
    exact roundDouble_eq (9) 6333186975989760 (by norm_num) (by norm_num) (by norm_num) (by norm_num)
      (by simp only [roundHalfEven]; norm_num) (by norm_num)
  unfold rescale
  rw [if_pos (by decide)]
  simp only [ha, hb, hs, hw, hh]
  rw [truncToInt_eq (1280) (by norm_num) (by norm_num) (by norm_num),
    truncToInt_eq (720) (by norm_num) (by norm_num) (by norm_num)]

theorem fit_640_360 : fitToScreen 640 360 0 0 1280 720
    = { m_videoWidth := 1280, m_videoHeight := 720, m_displayLeft := 0,
        m_displayTop := 0, m_displayRight := 1280, m_displayBottom := 720 } := by
  have hr : rescale 640 360 (1280 - 0) (720 - 0) = (1280, 720) := fit_640_360_rescale
  unfold fitToScreen
  simp only [hr]
  decide

theorem fit_4900_49_rescale : rescale 4900 49 100 1000 = (99, 0) := by
  have ha : roundDouble (((100 : Int) : ℚ) / ((4900 : Int) : ℚ)) = 5882252574524729 / 288230376151711744 := by
    norm_num
    exact roundDouble_eq (-6) 5882252574524729 (by norm_num) (by norm_num) (by norm_num) (by norm_num)
      (by simp only [roundHalfEven]; norm_num) (by norm_num)
  have hb : roundDouble (((1000 : Int) : ℚ) / ((49 : Int) : ℚ)) = 2872193639904653 / 140737488355328 := by
    norm_num
    exact roundDouble_eq (4) 5744387279809306 (by norm_num) (by norm_num) (by norm_num) (by norm_num)
      (by simp only [roundHalfEven]; norm_num) (by norm_num)
  have hs : (if (5882252574524729 / 288230376151711744 : ℚ) < 2872193639904653 / 140737488355328 then (5882252574524729 / 288230376151711744 : ℚ) else 2872193639904653 / 140737488355328) = 5882252574524729 / 288230376151711744 := by
    norm_num
  have hw : roundDouble (((4900 : Int) : ℚ) * (5882252574524729 / 288230376151711744)) = 7036874417766399 / 70368744177664 := by
    norm_num
    exact roundDouble_eq (6) 7036874417766399 (by norm_num) (by norm_num) (by norm_num) (by norm_num)
      (by simp only [roundHalfEven]; norm_num) (by norm_num)
  have hh : roundDouble (((49 : Int) : ℚ) * (5882252574524729 / 288230376151711744)) = 9007199254740991 / 9007199254740992 := by
    norm_num
    exact roundDouble_eq (-1) 9007199254740991 (by norm_num) (by norm_num) (by norm_num) (by norm_num)
      (by simp only [roundHalfEven]; norm_num) (by norm_num)
  unfold rescale
  rw [if_pos (by decide)]
  simp only [ha, hb, hs, hw, hh]
  rw [truncToInt_eq (99) (by norm_num) (by norm_num) (by norm_num),
    truncToInt_eq (0) (by norm_num) (by norm_num) (by norm_num)]

/-- A rounding case: both products land just below an integer, 99.99999999999999 and
0.9999999999999999, and are truncated to 99 and 0. -/
theorem fit_4900_49 : fitToScreen 4900 49 0 0 100 1000
    = { m_videoWidth := 99, m_videoHeight := 0, m_displayLeft := 0,
        m_displayTop := 500, m_displayRight := 100, m_displayBottom := 500 } := by
  have hr : rescale 4900 49 (100 - 0) (1000 - 0) = (99, 0) := fit_4900_49_rescale
  unfold fitToScreen
  simp only [hr]
  decide

theorem fit_0_360 : fitToScreen 0 360 0 0 1280 720
    = { m_videoWidth := 0, m_videoHeight := 360, m_displayLeft := 640,
        m_displayTop := 180, m_displayRight := 640, m_displayBottom := 540 } := by
  have hr : rescale 0 360 (1280 - 0) (720 - 0) = (0, 360) := rescale_of_fits (by decide)
  unfold fitToScreen
  simp only [hr]
  decide

/-! ## Geometry: the claims -/

/-- Claim C1 as stated fails: the source (800,600) fits in the region (0,0,1000,800) on both
axes, yet `openVideoFile` rescales it (it is strictly smaller on both axes, case 2 of the
comment at lines 91-93) to (1000,750), drawn at left 0, top 25, right 1000, bottom 775. -/
theorem fit_unscaled_counterexample :
    (0 : Int) < 800 ∧ (0 : Int) < 600 ∧ (800 : Int) ≤ 1000 - 0 ∧ (600 : Int) ≤ 800 - 0
      ∧ fitToScreen 800 600 0 0 1000 800
          = { m_videoWidth := 1000, m_videoHeight := 750, m_displayLeft := 0,
              m_displayTop := 25, m_displayRight := 1000, m_displayBottom := 775 }
      ∧ (fitToScreen 800 600 0 0 1000 800).m_videoWidth ≠ 800
      ∧ (fitToScreen 800 600 0 0 1000 800).m_videoHeight ≠ 600 := by
  refine ⟨by decide, by decide, by decide, by decide, fit_800_600, ?_, ?_⟩
  · rw [fit_800_600]; decide
  · rw [fit_800_600]; decide

/-- Claim C1, amended: for a source with positive dimensions that fits in a region with
origin (0,0) (`vw ≤ right`, `vh ≤ bottom`) and equals the region size on at least one axis,
`openVideoFile` keeps the source dimensions (no scaling) and the destination rectangle has
equal insets on both axes. -/
theorem fit_unscaled_equal_insets (vw vh right bottom : Int) (_hw : 0 < vw) (_hh : 0 < vh)
    (hfw : vw ≤ right) (hfh : vh ≤ bottom) (hedge : vw = right ∨ vh = bottom) :
    (fitToScreen vw vh 0 0 right bottom).m_videoWidth = vw
      ∧ (fitToScreen vw vh 0 0 right bottom).m_videoHeight = vh
      ∧ (fitToScreen vw vh 0 0 right bottom).m_displayLeft - 0
          = right - (fitToScreen vw vh 0 0 right bottom).m_displayRight
      ∧ (fitToScreen vw vh 0 0 right bottom).m_displayTop - 0
          = bottom - (fitToScreen vw vh 0 0 right bottom).m_displayBottom := by
  have hk : rescale vw vh (right - 0) (bottom - 0) = (vw, vh) :=
    rescale_of_fits (by omega)
  refine ⟨by rw [fitToScreen_videoWidth, hk], by rw [fitToScreen_videoHeight, hk], ?_⟩
  by_cases hc : (rescale vw vh (right - 0) (bottom - 0)).1 < right - 0
      ∨ (rescale vw vh (right - 0) (bottom - 0)).2 < bottom - 0
  · rw [fitToScreen_centered hc]
    simp only
    omega
  · rw [fitToScreen_full hc]
    simp

/-- Claim C1, amended, at a concrete input: the source (800,600) in the region (0,0,800,1000)
is kept at (800,600) and drawn with equal insets on both axes. -/
theorem fit_unscaled_equal_insets_witness :
    (fitToScreen 800 600 0 0 800 1000).m_videoWidth = 800
      ∧ (fitToScreen 800 600 0 0 800 1000).m_videoHeight = 600
      ∧ (fitToScreen 800 600 0 0 800 1000).m_displayLeft - 0
          = 800 - (fitToScreen 800 600 0 0 800 1000).m_displayRight
      ∧ (fitToScreen 800 600 0 0 800 1000).m_displayTop - 0
          = 1000 - (fitToScreen 800 600 0 0 800 1000).m_displayBottom :=
  fit_unscaled_equal_insets 800 600 800 1000 (by decide) (by decide) (by decide) (by decide)
    (Or.inl (by decide))

/-- Claim C2 fails on the code: the 854x480 source is strictly smaller than the region
(0,0,1920,1080) on both axes, and the formula of the claim gives the working size
(1920,1079), which reaches the region width.  In the binary64 arithmetic of lines 99-105 the
quotient `1920.0 / 854.0` is rounded down, `854 * scale` is rounded to a value just below
1920, and the cast truncates it: the working size is (1919,1079), which reaches the region on
neither axis. -/
theorem fit_rescale_misses_screen :
    (0 : Int) < 854 ∧ (0 : Int) < 480 ∧ (0 : Int) < 1920 - 0 ∧ (0 : Int) < 1080 - 0
      ∧ ((854 : Int) < 1920 - 0 ∧ (480 : Int) < 1080 - 0)
      ∧ specRescale 854 480 (1920 - 0) (1080 - 0) = (1920, 1079)
      ∧ fitToScreen 854 480 0 0 1920 1080
          = { m_videoWidth := 1919, m_videoHeight := 1079, m_displayLeft := 0,
              m_displayTop := 0, m_displayRight := 1920, m_displayBottom := 1080 }
      ∧ ((fitToScreen 854 480 0 0 1920 1080).m_videoWidth,
          (fitToScreen 854 480 0 0 1920 1080).m_videoHeight)
          ≠ specRescale 854 480 (1920 - 0) (1080 - 0)
      ∧ ¬ ((fitToScreen 854 480 0 0 1920 1080).m_videoWidth = 1920 - 0
          ∨ (fitToScreen 854 480 0 0 1920 1080).m_videoHeight = 1080 - 0) := by
  have hspec : specRescale 854 480 (1920 - 0) (1080 - 0) = (1920, 1079) := by
    unfold specRescale
    have hmin : min ((((1920 - 0 : Int) : ℚ)) / ((854 : Int) : ℚ))
        ((((1080 - 0 : Int) : ℚ)) / ((480 : Int) : ℚ)) = 960 / 427 := by
      norm_num
    simp only [hmin]
    refine Prod.ext ?_ ?_
    · exact Int.floor_eq_iff.mpr ⟨by norm_num, by norm_num⟩
    · exact Int.floor_eq_iff.mpr ⟨by norm_num, by norm_num⟩
  refine ⟨by decide, by decide, by decide, by decide, ⟨by decide, by decide⟩, hspec,
    fit_854_480, ?_, ?_⟩
  · rw [fit_854_480, hspec]; decide
  · rw [fit_854_480]; decide

/-- The two inputs named in claim C2, on the code: (4000,2000) in (0,0,1000,1000) gives
(1000,500) drawn at left 0, top 250, right 1000, bottom 750; (100,50) in (0,0,1000,500) gives
(1000,500) drawn at (0,0,1000,500). -/
theorem fit_rescale_named_inputs :
    fitToScreen 4000 2000 0 0 1000 1000
        = { m_videoWidth := 1000, m_videoHeight := 500, m_displayLeft := 0,
            m_displayTop := 250, m_displayRight := 1000, m_displayBottom := 750 }
      ∧ fitToScreen 100 50 0 0 1000 500
        = { m_videoWidth := 1000, m_videoHeight := 500, m_displayLeft := 0,
            m_displayTop := 0, m_displayRight := 1000, m_displayBottom := 500 } :=
  ⟨fit_4000_2000, fit_100_50⟩

/-- Claim C3 fails on the code when the region origin is not zero: with the overscan rectangle
(20,10,1900,1070) (size 1880 x 1060) a 1280x720 source is drawn at left 0, top 1, right 1900,
bottom 1069, which is 1900 x 1068: larger than the region on both axes.  The centering branch
(lines 111-115) drops the region origin that the other branch keeps. -/
theorem fit_exceeds_region_with_overscan :
    (0 : Int) < 1280 ∧ (0 : Int) < 720 ∧ (20 : Int) < 1900 ∧ (10 : Int) < 1070
      ∧ fitToScreen 1280 720 20 10 1900 1070
          = { m_videoWidth := 1880, m_videoHeight := 1057, m_displayLeft := 0,
              m_displayTop := 1, m_displayRight := 1900, m_displayBottom := 1069 }
      ∧ ¬ ((fitToScreen 1280 720 20 10 1900 1070).m_displayRight
            - (fitToScreen 1280 720 20 10 1900 1070).m_displayLeft ≤ 1900 - 20)
      ∧ ¬ ((fitToScreen 1280 720 20 10 1900 1070).m_displayBottom
            - (fitToScreen 1280 720 20 10 1900 1070).m_displayTop ≤ 1070 - 10) := by
  refine ⟨by decide, by decide, by decide, by decide, fit_1280_720, ?_, ?_⟩
  · rw [fit_1280_720]; decide
  · rw [fit_1280_720]; decide

/-- Claim C4 as stated fails: the source (4000,1) in the region (0,0,1000,1000) is rescaled
to (1000,0) and drawn at top 500, bottom 500: a degenerate rectangle. -/
theorem fit_degenerate_counterexample :
    (0 : Int) < 4000 ∧ (0 : Int) < 1 ∧ (0 : Int) < 1000
      ∧ fitToScreen 4000 1 0 0 1000 1000
          = { m_videoWidth := 1000, m_videoHeight := 0, m_displayLeft := 0,
              m_displayTop := 500, m_displayRight := 1000, m_displayBottom := 500 }
      ∧ ¬ ((fitToScreen 4000 1 0 0 1000 1000).m_displayBottom
            > (fitToScreen 4000 1 0 0 1000 1000).m_displayTop) := by
  refine ⟨by decide, by decide, by decide, fit_4000_1, ?_⟩
  rw [fit_4000_1]; decide

/-- Claim C4, amended: for a source with positive dimensions and a region with `right > left`,
`bottom > top` and non-negative `left`, `top`, the destination rectangle is non-degenerate
whenever both working dimensions are at least 1. -/
theorem fit_nondegenerate (vw vh left top right bottom : Int) (_hw : 0 < vw) (_hh : 0 < vh)
    (hl : 0 ≤ left) (ht : 0 ≤ top) (hr : left < right) (hb : top < bottom)
    (hpw : 0 < (fitToScreen vw vh left top right bottom).m_videoWidth)
    (hph : 0 < (fitToScreen vw vh left top right bottom).m_videoHeight) :
    (fitToScreen vw vh left top right bottom).m_displayRight
        > (fitToScreen vw vh left top right bottom).m_displayLeft
      ∧ (fitToScreen vw vh left top right bottom).m_displayBottom
        > (fitToScreen vw vh left top right bottom).m_displayTop := by
  rw [fitToScreen_videoWidth] at hpw
  rw [fitToScreen_videoHeight] at hph
  by_cases hc : (rescale vw vh (right - left) (bottom - top)).1 < right - left
      ∨ (rescale vw vh (right - left) (bottom - top)).2 < bottom - top
  · rw [fitToScreen_centered hc]
    simp only
    have h1 := two_mul_tdiv_two_le (right - left - (rescale vw vh (right - left) (bottom - top)).1)
    have h2 := two_mul_tdiv_two_le (bottom - top - (rescale vw vh (right - left) (bottom - top)).2)
    rcases max_cases (right - left - (rescale vw vh (right - left) (bottom - top)).1) 0
      with ⟨e1, _⟩ | ⟨e1, _⟩ <;>
    rcases max_cases (bottom - top - (rescale vw vh (right - left) (bottom - top)).2) 0
      with ⟨e2, _⟩ | ⟨e2, _⟩ <;>
    · rw [e1] at h1
      rw [e2] at h2
      constructor <;> omega
  · rw [fitToScreen_full hc]
    exact ⟨hr, hb⟩

/-- Claim C4, amended, at a concrete input: (4000,2000) in (0,0,1000,1000) has working
dimensions (1000,500) and a non-degenerate destination rectangle. -/
theorem fit_nondegenerate_witness :
    (fitToScreen 4000 2000 0 0 1000 1000).m_displayRight
        > (fitToScreen 4000 2000 0 0 1000 1000).m_displayLeft
      ∧ (fitToScreen 4000 2000 0 0 1000 1000).m_displayBottom
        > (fitToScreen 4000 2000 0 0 1000 1000).m_displayTop :=
  fit_nondegenerate 4000 2000 0 0 1000 1000 (by decide) (by decide) (by decide)
    (by decide) (by decide) (by decide) (by rw [fit_4000_2000]; decide)
    (by rw [fit_4000_2000]; decide)

/-! ## Player: auxiliary facts -/

/-- `Render` returns at once when no texture is allocated (lines 139-140). -/
theorem Render_of_no_texture (dec : FFmpegVideoDecoder σ) (fuel now : Nat)
    {p : SimpleVideoPlayer σ} (h : p.m_texture = none) : Render dec fuel now p = some p := by
  unfold Render
  rw [h]

/-- A tick before the due time only draws (lines 147 and 171-173). -/
theorem Render_before_due (dec : FFmpegVideoDecoder σ) (fuel now : Nat)
    (p : SimpleVideoPlayer σ) (tex : CTexture) (h : p.m_texture = some tex)
    (hlt : (now : ℚ) < p.m_nextFrameTime) : Render dec fuel now p = some (drawQuad p) := by
  unfold Render
  rw [h]
  simp only
  rw [if_neg (not_le.mpr hlt)]

/-- A tick on which the first frame request succeeds. -/
theorem Render_of_frame (dec : FFmpegVideoDecoder σ) (fuel now : Nat)
    (p : SimpleVideoPlayer σ) (tex : CTexture) (i : Nat) (d : σ)
    (h : p.m_texture = some tex) (hdue : p.m_nextFrameTime ≤ (now : ℚ))
    (hf : dec.nextFrame p.m_decoder = (some i, d)) :
    Render dec (fuel + 1) now p = some (drawQuad { p with
      m_decoder := d
      m_texture := some { tex with frame := some i }
      m_nextFrameTime := (now : ℚ) + p.m_millisecondsPerFrame - ((now : ℚ) - p.m_nextFrameTime)
      calls := p.calls ++ [Call.nextFrame true] }) := by
  unfold Render
  rw [h]
  simp only
  rw [if_pos hdue]
  unfold nextFrameLoop
  simp only [hf, Option.map_some']

/-- A tick on which the first frame request fails and the request after `seek(0)` succeeds. -/
theorem Render_of_eof_then_frame (dec : FFmpegVideoDecoder σ) (fuel now : Nat)
    (p : SimpleVideoPlayer σ) (tex : CTexture) (i : Nat) (d d1 : σ)
    (h : p.m_texture = some tex) (hdue : p.m_nextFrameTime ≤ (now : ℚ))
    (hf : dec.nextFrame p.m_decoder = (none, d))
    (hf1 : dec.nextFrame (dec.seek 0 d) = (some i, d1)) :
    Render dec (fuel + 2) now p = some (drawQuad { p with
      m_decoder := d1
      m_texture := some { tex with frame := some i }
      m_nextFrameTime := 0
      calls := p.calls ++ [Call.nextFrame false, Call.seek 0] ++ [Call.nextFrame true] }) := by
  unfold Render
  rw [h]
  simp only
  rw [if_pos hdue]
  unfold nextFrameLoop
  simp only [hf]
  unfold nextFrameLoop
  simp only [hf1, Option.map_some']

theorem openVideoFile_of_reject {dec : FFmpegVideoDecoder σ} {host : Host} {filename : String}
    {p : SimpleVideoPlayer σ} {d : σ}
    (h : dec.openFile (host.TranslatePath filename) p.m_decoder = (false, d)) :
    openVideoFile dec host filename p = (false, { p with
      m_decoder := d
      calls := p.calls ++ [Call.decoderOpen (host.TranslatePath filename) false] }) := by
  unfold openVideoFile
  simp only [h, if_true]

theorem openVideoFile_of_accept {dec : FFmpegVideoDecoder σ} {host : Host} {filename : String}
    {p : SimpleVideoPlayer σ} {d : σ}
    (h : dec.openFile (host.TranslatePath filename) p.m_decoder = (true, d)) :
    openVideoFile dec host filename p = (true, { p with
      m_decoder := d
      m_videoWidth := (fitToScreen (dec.getWidth d) (dec.getHeight d) host.OverscanLeft
        host.OverscanTop host.OverscanRight host.OverscanBottom).m_videoWidth
      m_videoHeight := (fitToScreen (dec.getWidth d) (dec.getHeight d) host.OverscanLeft
        host.OverscanTop host.OverscanRight host.OverscanBottom).m_videoHeight
      m_curVideoFile := filename
      m_displayLeft := (fitToScreen (dec.getWidth d) (dec.getHeight d) host.OverscanLeft
        host.OverscanTop host.OverscanRight host.OverscanBottom).m_displayLeft
      m_displayTop := (fitToScreen (dec.getWidth d) (dec.getHeight d) host.OverscanLeft
        host.OverscanTop host.OverscanRight host.OverscanBottom).m_displayTop
      m_displayRight := (fitToScreen (dec.getWidth d) (dec.getHeight d) host.OverscanLeft
        host.OverscanTop host.OverscanRight host.OverscanBottom).m_displayRight
      m_displayBottom := (fitToScreen (dec.getWidth d) (dec.getHeight d) host.OverscanLeft
        host.OverscanTop host.OverscanRight host.OverscanBottom).m_displayBottom
      m_millisecondsPerFrame := 1 / dec.getFramesPerSecond d
      calls := p.calls ++ [Call.decoderOpen (host.TranslatePath filename) true] }) := by
  unfold openVideoFile
  simp only [h, Bool.true_eq_false, if_false]

/-- `Start` on a non-empty path that the decoder rejects (lines 181-182). -/
theorem Start_of_reject {dec : FFmpegVideoDecoder σ} {host : Host} {filename : String}
    {p : SimpleVideoPlayer σ} {d : σ} (hf : filename ≠ "")
    (h : dec.openFile (host.TranslatePath filename) p.m_decoder = (false, d)) :
    Start dec host filename p = (false, { p with
      m_decoder := d
      calls := p.calls ++ [Call.decoderOpen (host.TranslatePath filename) false] }) := by
  unfold Start
  simp only [if_pos hf, openVideoFile_of_reject h, if_true]

/-- `Start` on a non-empty path that the decoder opens, with the texture allocated. -/
theorem Start_of_accept {dec : FFmpegVideoDecoder σ} {host : Host} {filename : String}
    {p : SimpleVideoPlayer σ} {d : σ} {fit : Fit} (hf : filename ≠ "")
    (h : dec.openFile (host.TranslatePath filename) p.m_decoder = (true, d))
    (hfit : fitToScreen (dec.getWidth d) (dec.getHeight d) host.OverscanLeft
        host.OverscanTop host.OverscanRight host.OverscanBottom = fit)
    (ha : host.canAllocate fit.m_videoWidth fit.m_videoHeight = true) :
    Start dec host filename p = (true, { p with
      m_decoder := d
      m_timeFromPrevSong := 0
      m_texture := some { width := fit.m_videoWidth, height := fit.m_videoHeight, frame := none }
      m_bIsPlaying := true
      m_videoWidth := fit.m_videoWidth
      m_videoHeight := fit.m_videoHeight
      m_curVideoFile := filename
      m_displayLeft := fit.m_displayLeft
      m_displayTop := fit.m_displayTop
      m_displayRight := fit.m_displayRight
      m_displayBottom := fit.m_displayBottom
      m_millisecondsPerFrame := 1 / dec.getFramesPerSecond d
      m_nextFrameTime := 0
      calls := p.calls ++ [Call.decoderOpen (host.TranslatePath filename) true,
        Call.newTexture fit.m_videoWidth fit.m_videoHeight] }) := by
  subst hfit
  unfold Start
  rw [if_pos hf, openVideoFile_of_accept h]
  simp only [Bool.true_eq_false, if_false]
  unfold allocateTexture
  simp only [ha, Bool.true_eq_false, if_false, List.append_assoc, List.singleton_append]

/-- `Start` on a non-empty path that the decoder opens, with the allocation failing. -/
theorem Start_of_alloc_fail {dec : FFmpegVideoDecoder σ} {host : Host} {filename : String}
    {p : SimpleVideoPlayer σ} {d : σ} {fit : Fit} (hf : filename ≠ "")
    (h : dec.openFile (host.TranslatePath filename) p.m_decoder = (true, d))
    (hfit : fitToScreen (dec.getWidth d) (dec.getHeight d) host.OverscanLeft
        host.OverscanTop host.OverscanRight host.OverscanBottom = fit)
    (ha : host.canAllocate fit.m_videoWidth fit.m_videoHeight = false) :
    Start dec host filename p = (false, { p with
      m_decoder := d
      m_timeFromPrevSong := 0
      m_texture := none
      m_videoWidth := fit.m_videoWidth
      m_videoHeight := fit.m_videoHeight
      m_curVideoFile := filename
      m_displayLeft := fit.m_displayLeft
      m_displayTop := fit.m_displayTop
      m_displayRight := fit.m_displayRight
      m_displayBottom := fit.m_displayBottom
      m_millisecondsPerFrame := 1 / dec.getFramesPerSecond d
      calls := p.calls ++ [Call.decoderOpen (host.TranslatePath filename) true] }) := by
  subst hfit
  unfold Start
  rw [if_pos hf, openVideoFile_of_accept h]
  simp only [Bool.true_eq_false, if_false]
  unfold allocateTexture
  simp only [ha, if_true]

/-- A successful `Start` on a non-empty path has opened the file, holds the decoder state
left by `open` and has a texture allocated. -/
theorem Start_true_iff (dec : FFmpegVideoDecoder σ) (host : Host) {filename : String}
    (p : SimpleVideoPlayer σ) (hf : filename ≠ "")
    (h : (Start dec host filename p).1 = true) :
    (dec.openFile (host.TranslatePath filename) p.m_decoder).1 = true
      ∧ (Start dec host filename p).2.m_decoder
          = (dec.openFile (host.TranslatePath filename) p.m_decoder).2
      ∧ ∃ tex, (Start dec host filename p).2.m_texture = some tex := by
  rcases ho : dec.openFile (host.TranslatePath filename) p.m_decoder with ⟨_ | _, d⟩
  · rw [Start_of_reject hf ho] at h
    simp at h
  · by_cases ha : host.canAllocate
        (fitToScreen (dec.getWidth d) (dec.getHeight d) host.OverscanLeft
          host.OverscanTop host.OverscanRight host.OverscanBottom).m_videoWidth
        (fitToScreen (dec.getWidth d) (dec.getHeight d) host.OverscanLeft
          host.OverscanTop host.OverscanRight host.OverscanBottom).m_videoHeight = true
    · rw [Start_of_accept hf ho rfl ha]
      exact ⟨rfl, rfl, _, rfl⟩
    · rw [Start_of_alloc_fail hf ho rfl (by simpa using ha)] at h
      simp at h

/-- The state reached by `Start("bg.mp4")` on a freshly constructed player. -/
theorem playing_eq (hasFrame : Nat → Bool) :
    Start (bgDecoder hasFrame 640 360) testHost "bg.mp4" (SimpleVideoPlayer.create ⟨false, 0⟩)
      = (true,
          { m_decoder := ⟨true, 0⟩, m_timeFromPrevSong := 0,
            m_texture := some { width := 1280, height := 720, frame := none },
            m_bIsPlaying := true, m_bHasVideo := true,
            m_videoWidth := 1280, m_videoHeight := 720, m_curVideoFile := "bg.mp4",
            m_displayLeft := 0, m_displayTop := 0, m_displayRight := 1280,
            m_displayBottom := 720, m_millisecondsPerFrame := 1 / 25, m_nextFrameTime := 0,
            calls := [Call.decoderOpen "bg.mp4" true, Call.newTexture 1280 720] }) := by
  have ho : (bgDecoder hasFrame 640 360).openFile (testHost.TranslatePath "bg.mp4")
      (SimpleVideoPlayer.create (⟨false, 0⟩ : StubState)).m_decoder = (true, ⟨true, 0⟩) := by
    simp [bgDecoder, stubDecoder, testHost]
  exact Start_of_accept (by decide) ho fit_640_360 rfl

theorem loopDecoder_nextFrame_lt (N : Nat) (w h : Int) (fps : ℚ) (accept : String → Bool)
    (s : StubState) (hk : s.pos < N) :
    (loopDecoder N w h fps accept).nextFrame s = (some s.pos, { s with pos := s.pos + 1 }) := by
  simp [loopDecoder, stubDecoder, hk]

theorem loopDecoder_nextFrame_eof (N : Nat) (w h : Int) (fps : ℚ) (accept : String → Bool)
    (s : StubState) (hk : N ≤ s.pos) :
    (loopDecoder N w h fps accept).nextFrame s = (none, s) := by
  simp [loopDecoder, stubDecoder, hk]

theorem loopDecoder_seek_zero (N : Nat) (w h : Int) (fps : ℚ) (accept : String → Bool)
    (s : StubState) :
    (loopDecoder N w h fps accept).seek 0 s = { s with pos := 0 } := by
  simp [loopDecoder, stubDecoder]

/-- Playing the `N`-frame stream from frame index `pos` to its end and one tick further:
`nows.length + pos = N + 1` ticks, each at or after the due time. -/
theorem loopDecoder_run (N : Nat) (hN : 1 ≤ N) (w h : Int) (fps : ℚ) (accept : String → Bool)
    (fuel : Nat) :
    ∀ (nows : List Nat) (p : SimpleVideoPlayer StubState) (tex : CTexture),
      p.m_texture = some tex → p.m_decoder.pos ≤ N → nows.length + p.m_decoder.pos = N + 1 →
      ticksDue (loopDecoder N w h fps accept) (fuel + 2) nows p = true →
      ∃ q cs, renderTicks (loopDecoder N w h fps accept) (fuel + 2) nows p = some q
        ∧ q.calls = p.calls ++ cs
        ∧ cs.filter Call.isSeek = [Call.seek 0]
        ∧ cs.countP Call.isNextFrame = nows.length + 1
        ∧ cs.countP Call.isDraw = nows.length
        ∧ cs.countP Call.isTextureLifetime = 0
        ∧ cs.getLast? = some (Call.drawQuad p.m_displayLeft p.m_displayTop p.m_displayRight
            p.m_displayBottom (some 0))
        ∧ q.m_texture = some { tex with frame := some 0 }
        ∧ q.m_decoder.pos = 1 := by
  intro nows
  induction nows with
  | nil => intro p tex _ hle hlen _; simp at hlen; omega
  | cons now rest ih =>
    intro p tex htex hle hlen hdue
    simp only [ticksDue, Bool.and_eq_true, decide_eq_true_eq] at hdue
    obtain ⟨hnow, hrest⟩ := hdue
    simp only [List.length_cons] at hlen
    rcases Nat.lt_or_ge p.m_decoder.pos N with hlt | hge
    · have hR := Render_of_frame (loopDecoder N w h fps accept) (fuel + 1) now p tex _ _ htex
        hnow (loopDecoder_nextFrame_lt N w h fps accept p.m_decoder hlt)
      rw [hR] at hrest
      simp only at hrest
      obtain ⟨q, cs, hq, hcalls, hseek, hnf, hdraw, htl, hlast, hqt, hqd⟩ :=
        ih _ { tex with frame := some p.m_decoder.pos } rfl (by simpa [drawQuad] using hlt)
          (by simp [drawQuad]; omega) hrest
      refine ⟨q, [Call.nextFrame true, Call.drawQuad p.m_displayLeft p.m_displayTop
        p.m_displayRight p.m_displayBottom (some p.m_decoder.pos)] ++ cs,
        ?_, ?_, ?_, ?_, ?_, ?_, ?_, hqt, hqd⟩
      · simp only [renderTicks, hR, Option.some_bind, hq]
      · rw [hcalls]
        simp [drawQuad]
      · simp [Call.isSeek, hseek]
      · simp [Call.isNextFrame, hnf, List.countP_cons]
      · simp [Call.isDraw, hdraw, List.countP_cons]
      · simp [Call.isTextureLifetime, htl, List.countP_cons]
      · rw [List.getLast?_append, hlast]
        rfl
    · have hnil : rest = [] := List.length_eq_zero.mp (by omega)
      subst hnil
      have hR := Render_of_eof_then_frame (loopDecoder N w h fps accept) fuel now p tex _ _ _
        htex hnow (loopDecoder_nextFrame_eof N w h fps accept p.m_decoder hge)
        (by rw [loopDecoder_seek_zero]
            exact loopDecoder_nextFrame_lt N w h fps accept { p.m_decoder with pos := 0 }
              (by simpa using hN))
      refine ⟨_, [Call.nextFrame false, Call.seek 0, Call.nextFrame true,
        Call.drawQuad p.m_displayLeft p.m_displayTop p.m_displayRight p.m_displayBottom
          (some 0)], (by simp only [renderTicks, hR, Option.some_bind]; rfl),
        ?_, ?_, ?_, ?_, ?_, rfl, ?_, ?_⟩
      · simp [drawQuad]
      · simp [Call.isSeek]
      · simp [Call.isNextFrame, List.countP_cons]
      · simp [Call.isDraw, List.countP_cons]
      · simp [Call.isTextureLifetime, List.countP_cons]
      · simp [drawQuad]
      · simp [drawQuad]

/-- The loop of `Render` leaves once the decoder produces a frame, after `k + 1` requests. -/
theorem nextFrameLoop_of_produces (dec : FFmpegVideoDecoder σ) (tex : CTexture) :
    ∀ (k fuel : Nat) (p : SimpleVideoPlayer σ),
      producesFrameAfter dec k p.m_decoder = true → k < fuel →
      ∃ q cs, nextFrameLoop dec fuel tex p = some q ∧ q.calls = p.calls ++ cs
        ∧ cs.countP Call.isNextFrame = k + 1 ∧ cs.countP Call.isSeek = k
        ∧ cs.countP Call.isDraw = 0 := by
  intro k
  induction k with
  | zero =>
    intro fuel p hp hk
    obtain ⟨f, rfl⟩ : ∃ f, fuel = f + 1 := ⟨fuel - 1, by omega⟩
    simp only [producesFrameAfter] at hp
    rcases hnf : dec.nextFrame p.m_decoder with ⟨_ | i, d⟩
    · rw [hnf] at hp; simp at hp
    · refine ⟨{ p with
          m_decoder := d
          m_texture := some { tex with frame := some i }
          calls := p.calls ++ [Call.nextFrame true] }, [Call.nextFrame true], ?_, rfl, ?_, ?_, ?_⟩
      · simp only [nextFrameLoop, hnf]
      · simp [Call.isNextFrame]
      · simp [Call.isSeek]
      · simp [Call.isDraw]
  | succ k ih =>
    intro fuel p hp hk
    obtain ⟨f, rfl⟩ : ∃ f, fuel = f + 1 := ⟨fuel - 1, by omega⟩
    simp only [producesFrameAfter, Bool.and_eq_true] at hp
    rcases hnf : dec.nextFrame p.m_decoder with ⟨_ | i, d⟩
    · rw [hnf] at hp
      obtain ⟨q, cs, hq, hcalls, h1, h2, h3⟩ :=
        ih f { p with
          m_decoder := dec.seek 0 d
          m_nextFrameTime := 0
          calls := p.calls ++ [Call.nextFrame false, Call.seek 0] } hp.2 (by omega)
      refine ⟨q, [Call.nextFrame false, Call.seek 0] ++ cs,
        (by simp only [nextFrameLoop, hnf]; exact hq), ?_, ?_, ?_, ?_⟩
      · rw [hcalls]; simp
      · simp [Call.isNextFrame, List.countP_cons, h1]
      · simp [Call.isSeek, List.countP_cons, h2]
      · simp [Call.isDraw, List.countP_cons, h3]
    · rw [hnf] at hp; simp at hp

/-- With a decoder that never produces a frame the loop of `Render` has not left after any
number of iterations. -/
theorem nextFrameLoop_never (dec : FFmpegVideoDecoder σ)
    (hnone : ∀ d, (dec.nextFrame d).1 = none) (tex : CTexture) :
    ∀ (fuel : Nat) (p : SimpleVideoPlayer σ), nextFrameLoop dec fuel tex p = none := by
  intro fuel
  induction fuel with
  | zero => intro p; rfl
  | succ f ih =>
    intro p
    have h := hnone p.m_decoder
    rcases hnf : dec.nextFrame p.m_decoder with ⟨_ | i, d⟩
    · simp only [nextFrameLoop, hnf]
      exact ih _
    · rw [hnf] at h; simp at h

/-! ## Player: the claims -/

/-- Claim C5 fails on the code: after a successful open of a 25 fps stream the frame period
stored by `openVideoFile` is `1.0 / 25` (seconds per frame) although `Render` compares it
with a millisecond clock, so on the ticks 0, 10, 20, 30, 39, 41 a frame is requested from
the decoder on every tick: one request after the tick at 0, two after the tick at 10, five
after the tick at 39 and six after the tick at 41. -/
theorem pacing_requests_frame_every_tick :
    (Start (bgDecoder (fun _ => true) 640 360) testHost "bg.mp4"
        (SimpleVideoPlayer.create ⟨false, 0⟩)).1 = true
      ∧ (playing (fun _ => true)).m_millisecondsPerFrame = 1 / 25
      ∧ (renderTicks (bgDecoder (fun _ => true) 640 360) 1 [0]
          (playing (fun _ => true))).map frameRequests = some 1
      ∧ (renderTicks (bgDecoder (fun _ => true) 640 360) 1 [0, 10]
          (playing (fun _ => true))).map frameRequests = some 2
      ∧ (renderTicks (bgDecoder (fun _ => true) 640 360) 1 [0, 10, 20, 30, 39]
          (playing (fun _ => true))).map frameRequests = some 5
      ∧ (renderTicks (bgDecoder (fun _ => true) 640 360) 1 [0, 10, 20, 30, 39, 41]
          (playing (fun _ => true))).map frameRequests = some 6 := by
  have hs := playing_eq (fun _ => true)
  refine ⟨congrArg Prod.fst hs, ?_, ?_, ?_, ?_, ?_⟩
  · rw [playing, hs]
  all_goals
    rw [playing, hs]
    norm_num [renderTicks, Render, nextFrameLoop, drawQuad, bgDecoder, stubDecoder,
      frameRequests, Call.isNextFrame, List.countP_cons]

/-- Claim C6: for every `N ≥ 1` and the decoder that yields exactly `N` frames and then reports
the end of the stream, after a successful `Start` on a non-empty path, `N + 1` consecutive
`Render` ticks, each at a clock value at or after the current next-frame-due time, all return
(for every loop bound of at least 2), make exactly one `seek` request, which is `seek(0)`,
draw `N + 1` times, the last draw being that of frame 0, neither allocate nor release a
texture, and leave the same texture holding frame 0 with the decoder at frame index 1. -/
theorem loop_restart (N : Nat) (hN : 1 ≤ N) (width height : Int) (fps : ℚ)
    (accept : String → Bool) (host : Host) (path : String) (p0 : SimpleVideoPlayer StubState)
    (fuel : Nat) (nows : List Nat) (hpath : path ≠ "")
    (hopen : (Start (loopDecoder N width height fps accept) host path p0).1 = true)
    (hlen : nows.length = N + 1)
    (hdue : ticksDue (loopDecoder N width height fps accept) (fuel + 2) nows
      (Start (loopDecoder N width height fps accept) host path p0).2 = true) :
    ∃ tex q cs,
      (Start (loopDecoder N width height fps accept) host path p0).2.m_texture = some tex
      ∧ renderTicks (loopDecoder N width height fps accept) (fuel + 2) nows
          (Start (loopDecoder N width height fps accept) host path p0).2 = some q
      ∧ q.calls = (Start (loopDecoder N width height fps accept) host path p0).2.calls ++ cs
      ∧ cs.filter Call.isSeek = [Call.seek 0]
      ∧ cs.countP Call.isNextFrame = N + 2
      ∧ cs.countP Call.isDraw = N + 1
      ∧ cs.countP Call.isTextureLifetime = 0
      ∧ cs.getLast? = some (Call.drawQuad
          (Start (loopDecoder N width height fps accept) host path p0).2.m_displayLeft
          (Start (loopDecoder N width height fps accept) host path p0).2.m_displayTop
          (Start (loopDecoder N width height fps accept) host path p0).2.m_displayRight
          (Start (loopDecoder N width height fps accept) host path p0).2.m_displayBottom
          (some 0))
      ∧ q.m_texture = some { tex with frame := some 0 }
      ∧ q.m_decoder.pos = 1 := by
  obtain ⟨ho, hd, tex, htex⟩ := Start_true_iff _ host p0 hpath hopen
  have hpos :
      (Start (loopDecoder N width height fps accept) host path p0).2.m_decoder.pos = 0 := by
    rw [hd]
    simp only [loopDecoder, stubDecoder] at ho ⊢
    split_ifs at ho ⊢ with hacc
    rfl
  obtain ⟨q, cs, hq, hcalls, hseek, hnf, hdraw, htl, hlast, hqt, hqd⟩ :=
    loopDecoder_run N hN width height fps accept fuel nows _ tex htex (by omega) (by omega) hdue
  rw [hlen] at hnf hdraw
  exact ⟨tex, q, cs, htex, hq, hcalls, hseek, hnf, hdraw, htl, hlast, hqt, hqd⟩

/-- Claim C6 at a concrete input: a 2-frame stream and the three ticks 0, 1, 2. -/
theorem loop_restart_witness :
    ∃ tex q cs,
      (Start (loopDecoder 2 640 360 25 (fun path => path == "bg.mp4")) testHost "bg.mp4"
        (SimpleVideoPlayer.create ⟨false, 0⟩)).2.m_texture = some tex
      ∧ renderTicks (loopDecoder 2 640 360 25 (fun path => path == "bg.mp4")) (0 + 2) [0, 1, 2]
          (Start (loopDecoder 2 640 360 25 (fun path => path == "bg.mp4")) testHost "bg.mp4"
            (SimpleVideoPlayer.create ⟨false, 0⟩)).2 = some q
      ∧ q.calls = (Start (loopDecoder 2 640 360 25 (fun path => path == "bg.mp4")) testHost
          "bg.mp4" (SimpleVideoPlayer.create ⟨false, 0⟩)).2.calls ++ cs
      ∧ cs.filter Call.isSeek = [Call.seek 0]
      ∧ cs.countP Call.isNextFrame = 2 + 2
      ∧ cs.countP Call.isDraw = 2 + 1
      ∧ cs.countP Call.isTextureLifetime = 0
      ∧ cs.getLast? = some (Call.drawQuad
          (Start (loopDecoder 2 640 360 25 (fun path => path == "bg.mp4")) testHost "bg.mp4"
            (SimpleVideoPlayer.create ⟨false, 0⟩)).2.m_displayLeft
          (Start (loopDecoder 2 640 360 25 (fun path => path == "bg.mp4")) testHost "bg.mp4"
            (SimpleVideoPlayer.create ⟨false, 0⟩)).2.m_displayTop
          (Start (loopDecoder 2 640 360 25 (fun path => path == "bg.mp4")) testHost "bg.mp4"
            (SimpleVideoPlayer.create ⟨false, 0⟩)).2.m_displayRight
          (Start (loopDecoder 2 640 360 25 (fun path => path == "bg.mp4")) testHost "bg.mp4"
            (SimpleVideoPlayer.create ⟨false, 0⟩)).2.m_displayBottom
          (some 0))
      ∧ q.m_texture = some { tex with frame := some 0 }
      ∧ q.m_decoder.pos = 1 := by
  have hs := playing_eq (fun i => decide (i < 2))
  refine loop_restart 2 (by decide) 640 360 25 (fun path => path == "bg.mp4") testHost "bg.mp4"
    (SimpleVideoPlayer.create ⟨false, 0⟩) 0 [0, 1, 2] (by decide) ?_ rfl ?_
  · exact congrArg Prod.fst hs
  · have e : Start (loopDecoder 2 640 360 25 (fun path => path == "bg.mp4")) testHost "bg.mp4"
        (SimpleVideoPlayer.create ⟨false, 0⟩) = _ := hs
    rw [e]
    norm_num [ticksDue, Render, nextFrameLoop, drawQuad, loopDecoder, stubDecoder]

/-- Claim C7 as stated fails: with a decoder whose `nextFrame` never produces a frame, the
`Render` tick at clock 0 of a playing player has not returned within any loop bound. -/
theorem render_never_returns :
    ¬ ∃ fuel : Nat, (Render (bgDecoder (fun _ => false) 640 360) fuel 0
        (playing (fun _ => false))).isSome = true := by
  rintro ⟨fuel, h⟩
  have hn : ∀ d, ((bgDecoder (fun _ => false) 640 360).nextFrame d).1 = none := by
    intro d; simp [bgDecoder, stubDecoder]
  rw [playing, playing_eq] at h
  simp [Render, nextFrameLoop_never _ hn] at h

/-- Claim C7, amended: a `Render` tick with an allocated texture ends as follows.  Before the
next-frame-due time it makes no decoder request, draws and returns.  At or after the due time
it returns once the decoder produces a frame: if the first `k` frame requests fail (each
followed by `seek(0)` and a retry) and request `k + 1` produces a frame, the tick returns for
every loop bound above `k`, after exactly `k + 1` frame requests, `k` seeks and one draw.
There is no bound on the retries: at or after the due time, with a decoder that never produces
a frame, the tick has not returned within any loop bound. -/
theorem render_tick_termination (dec : FFmpegVideoDecoder σ) (k fuel now : Nat)
    (p : SimpleVideoPlayer σ) (tex : CTexture) (htex : p.m_texture = some tex) :
    ((now : ℚ) < p.m_nextFrameTime → Render dec fuel now p = some (drawQuad p))
      ∧ (p.m_nextFrameTime ≤ (now : ℚ) → producesFrameAfter dec k p.m_decoder = true →
          k < fuel →
          ∃ q cs, Render dec fuel now p = some q ∧ q.calls = p.calls ++ cs
            ∧ cs.countP Call.isNextFrame = k + 1 ∧ cs.countP Call.isSeek = k
            ∧ cs.countP Call.isDraw = 1)
      ∧ (p.m_nextFrameTime ≤ (now : ℚ) → (∀ d, (dec.nextFrame d).1 = none) →
          Render dec fuel now p = none) := by
  refine ⟨Render_before_due dec fuel now p tex htex, ?_, ?_⟩
  · intro hdue hframe hfuel
    obtain ⟨q, cs, hq, hcalls, h1, h2, h3⟩ :=
      nextFrameLoop_of_produces dec tex k fuel { p with
        m_nextFrameTime :=
          (now : ℚ) + p.m_millisecondsPerFrame - ((now : ℚ) - p.m_nextFrameTime) }
        hframe hfuel
    refine ⟨drawQuad q, cs ++ [Call.drawQuad q.m_displayLeft q.m_displayTop q.m_displayRight
      q.m_displayBottom (q.m_texture.bind (fun t => t.frame))], ?_, ?_, ?_, ?_, ?_⟩
    · unfold Render
      rw [htex]
      simp only
      rw [if_pos hdue]
      rw [htex] at hq
      rw [hq]
      rfl
    · simp [drawQuad, hcalls]
    · simp [Call.isNextFrame, h1]
    · simp [Call.isSeek, h2]
    · simp [Call.isDraw, h3]
  · intro hdue hnone
    unfold Render
    rw [htex]
    simp only
    rw [if_pos hdue, nextFrameLoop_never dec hnone tex]
    rfl

/-- Claim C7, amended, at concrete inputs.  On the 2-frame stream the ticks at 0 and 1 leave
the decoder at its end with due time 2/25.  From there the tick at clock 0 is not due: it only
draws.  The tick at clock 1 is due: its first frame request fails, it seeks to 0, the second
request produces a frame, and it returns after 2 requests, 1 seek and 1 draw.  With a decoder
that never produces a frame the first tick of a playing player has not returned after 7
iterations. -/
theorem render_tick_termination_witness :
    ∃ s, renderTicks (bgDecoder (fun i => decide (i < 2)) 640 360) 1 [0, 1]
          (playing (fun i => decide (i < 2))) = some s
      ∧ Render (bgDecoder (fun i => decide (i < 2)) 640 360) 2 0 s = some (drawQuad s)
      ∧ (∃ q cs, Render (bgDecoder (fun i => decide (i < 2)) 640 360) 2 1 s = some q
          ∧ q.calls = s.calls ++ cs
          ∧ cs.countP Call.isNextFrame = 1 + 1 ∧ cs.countP Call.isSeek = 1
          ∧ cs.countP Call.isDraw = 1)
      ∧ Render (bgDecoder (fun _ => false) 640 360) 7 0 (playing (fun _ => false)) = none := by
  have hs := playing_eq (fun i => decide (i < 2))
  have hd := playing_eq (fun _ => false)
  have hrun : renderTicks (bgDecoder (fun i => decide (i < 2)) 640 360) 1 [0, 1]
      (playing (fun i => decide (i < 2)))
      = some
          { m_decoder := ⟨true, 2⟩, m_timeFromPrevSong := 0,
            m_texture := some { width := 1280, height := 720, frame := some 1 },
            m_bIsPlaying := true, m_bHasVideo := true,
            m_videoWidth := 1280, m_videoHeight := 720, m_curVideoFile := "bg.mp4",
            m_displayLeft := 0, m_displayTop := 0, m_displayRight := 1280,
            m_displayBottom := 720, m_millisecondsPerFrame := 1 / 25,
            m_nextFrameTime := 2 / 25,
            calls := [Call.decoderOpen "bg.mp4" true, Call.newTexture 1280 720,
              Call.nextFrame true, Call.drawQuad 0 0 1280 720 (some 0),
              Call.nextFrame true, Call.drawQuad 0 0 1280 720 (some 1)] } := by
    rw [playing, hs]
    norm_num [renderTicks, Render, nextFrameLoop, drawQuad, bgDecoder, stubDecoder]
  refine ⟨_, hrun, ?_, ?_, ?_⟩
  · exact (render_tick_termination (bgDecoder (fun i => decide (i < 2)) 640 360) 1 2 0 _
      { width := 1280, height := 720, frame := some 1 } rfl).1 (by norm_num)
  · exact (render_tick_termination (bgDecoder (fun i => decide (i < 2)) 640 360) 1 2 1 _
      { width := 1280, height := 720, frame := some 1 } rfl).2.1 (by norm_num)
      (by simp [producesFrameAfter, bgDecoder, stubDecoder]) (by decide)
  · exact (render_tick_termination (bgDecoder (fun _ => false) 640 360) 0 7 0
      (playing (fun _ => false)) { width := 1280, height := 720, frame := none }
      (by rw [playing, hd])).2.2 (by rw [playing, hd]; norm_num)
      (by intro d; simp [bgDecoder, stubDecoder])

/-- Claim C8 as stated fails twice.  A decoder that opens the file and reports width 0 makes
`Start` succeed on a fresh player: the player is playing with a 0 x 360 texture.  And when
the decoder rejects the path on an already playing player, `Start` returns failure but the
player stays playing with its texture allocated. -/
theorem start_failure_counterexample :
    ((Start (bgDecoder (fun _ => true) 0 360) testHost "bg.mp4"
          (SimpleVideoPlayer.create ⟨false, 0⟩)).1 = true
      ∧ (Start (bgDecoder (fun _ => true) 0 360) testHost "bg.mp4"
          (SimpleVideoPlayer.create ⟨false, 0⟩)).2.m_bIsPlaying = true
      ∧ (Start (bgDecoder (fun _ => true) 0 360) testHost "bg.mp4"
          (SimpleVideoPlayer.create ⟨false, 0⟩)).2.m_texture
          = some { width := 0, height := 360, frame := none })
    ∧ ((Start (bgDecoder (fun _ => true) 640 360) testHost "missing.mp4"
          (playing (fun _ => true))).1 = false
      ∧ (Start (bgDecoder (fun _ => true) 640 360) testHost "missing.mp4"
          (playing (fun _ => true))).2.m_bIsPlaying = true
      ∧ (Start (bgDecoder (fun _ => true) 640 360) testHost "missing.mp4"
          (playing (fun _ => true))).2.m_texture
          = some { width := 1280, height := 720, frame := none }) := by
  constructor
  · have ho : (bgDecoder (fun _ => true) 0 360).openFile (testHost.TranslatePath "bg.mp4")
        (SimpleVideoPlayer.create (⟨false, 0⟩ : StubState)).m_decoder = (true, ⟨true, 0⟩) := by
      simp [bgDecoder, stubDecoder, testHost]
    rw [Start_of_accept (by decide) ho fit_0_360 rfl]
    exact ⟨rfl, rfl, rfl⟩
  · have hs := playing_eq (fun _ => true)
    have ho : (bgDecoder (fun _ => true) 640 360).openFile (testHost.TranslatePath "missing.mp4")
        (playing (fun _ => true)).m_decoder = (false, ⟨false, 0⟩) := by
      rw [playing, hs]
      simp [bgDecoder, stubDecoder, testHost]
    rw [Start_of_reject (by decide) ho, playing, hs]
    exact ⟨rfl, rfl, rfl⟩

/-- Claim C8, amended: for every prior player state and every non-empty path that the
decoder rejects, `Start` and `OpenFile` return failure and leave the texture and the
is-playing flag as they were; so a player that was Closed before is Closed afterwards. -/
theorem start_rejected_keeps_state (dec : FFmpegVideoDecoder σ) (host : Host) (path : String)
    (p : SimpleVideoPlayer σ) (hpath : path ≠ "")
    (hrej : (dec.openFile (host.TranslatePath path) p.m_decoder).1 = false) :
    (Start dec host path p).1 = false
      ∧ (OpenFile dec host path p).1 = false
      ∧ (Start dec host path p).2.m_texture = p.m_texture
      ∧ (Start dec host path p).2.m_bIsPlaying = p.m_bIsPlaying
      ∧ (Closed p → Closed (Start dec host path p).2) := by
  rcases ho : dec.openFile (host.TranslatePath path) p.m_decoder with ⟨_ | _, d⟩
  · have hs := Start_of_reject hpath ho
    refine ⟨by rw [hs], by rw [OpenFile, hs], by rw [hs], by rw [hs], ?_⟩
    intro hc
    rw [hs]
    exact hc
  · rw [ho] at hrej
    simp at hrej

/-- Claim C8, amended, at a concrete input: `Start("missing.mp4")` on a freshly constructed
player fails and leaves it Closed. -/
theorem start_rejected_keeps_state_witness :
    (Start (bgDecoder (fun _ => true) 640 360) testHost "missing.mp4"
        (SimpleVideoPlayer.create ⟨false, 0⟩)).1 = false
      ∧ (OpenFile (bgDecoder (fun _ => true) 640 360) testHost "missing.mp4"
        (SimpleVideoPlayer.create ⟨false, 0⟩)).1 = false
      ∧ (Start (bgDecoder (fun _ => true) 640 360) testHost "missing.mp4"
        (SimpleVideoPlayer.create ⟨false, 0⟩)).2.m_texture
          = (SimpleVideoPlayer.create (⟨false, 0⟩ : StubState)).m_texture
      ∧ (Start (bgDecoder (fun _ => true) 640 360) testHost "missing.mp4"
        (SimpleVideoPlayer.create ⟨false, 0⟩)).2.m_bIsPlaying
          = (SimpleVideoPlayer.create (⟨false, 0⟩ : StubState)).m_bIsPlaying
      ∧ (Closed (SimpleVideoPlayer.create (⟨false, 0⟩ : StubState)) →
          Closed (Start (bgDecoder (fun _ => true) 640 360) testHost "missing.mp4"
            (SimpleVideoPlayer.create ⟨false, 0⟩)).2) :=
  start_rejected_keeps_state (bgDecoder (fun _ => true) 640 360) testHost "missing.mp4"
    (SimpleVideoPlayer.create ⟨false, 0⟩) (by decide)
    (by simp [bgDecoder, stubDecoder, testHost])

/-- Claim C9: from every state, after `CloseFile` the player is Closed (no texture, is-playing
flag false); a second `CloseFile` leaves it Closed, changes no member other than the decoder
and the resume hint taken from it, and only adds a decoder close to the trace; and a `Render`
tick after `CloseFile` returns the player unchanged (no frame request, no seek, no draw, same
next-frame-due time) for every clock value and every loop bound. -/
theorem closeFile_idempotent (dec : FFmpegVideoDecoder σ) (p : SimpleVideoPlayer σ)
    (fuel now : Nat) :
    Closed (CloseFile dec p)
      ∧ Closed (CloseFile dec (CloseFile dec p))
      ∧ { CloseFile dec (CloseFile dec p) with
            m_decoder := (CloseFile dec p).m_decoder
            m_timeFromPrevSong := (CloseFile dec p).m_timeFromPrevSong
            calls := (CloseFile dec p).calls } = CloseFile dec p
      ∧ (CloseFile dec (CloseFile dec p)).calls
          = (CloseFile dec p).calls ++ [Call.decoderClose]
      ∧ Render dec fuel now (CloseFile dec p) = some (CloseFile dec p) := by
  refine ⟨⟨rfl, rfl⟩, ⟨rfl, rfl⟩, rfl, ?_, Render_of_no_texture dec fuel now rfl⟩
  simp [CloseFile, Stop]

/-- Claim C10 as stated fails: on a playing player with due time 0 and frame period 1/25, the
tick at clock 10 on which the decoder produces frame 0 sets the due time to 1/25, not to
`0 + (1/25 - (10 - 0))`. -/
theorem due_time_counterexample :
    (playing (fun _ => true)).m_texture = some { width := 1280, height := 720, frame := none }
      ∧ (playing (fun _ => true)).m_nextFrameTime ≤ ((10 : Nat) : ℚ)
      ∧ ((bgDecoder (fun _ => true) 640 360).nextFrame (playing (fun _ => true)).m_decoder).1
          = some 0
      ∧ ∃ q, Render (bgDecoder (fun _ => true) 640 360) 1 10 (playing (fun _ => true)) = some q
        ∧ q.m_nextFrameTime = 1 / 25
        ∧ q.m_nextFrameTime ≠ (playing (fun _ => true)).m_nextFrameTime
            + ((playing (fun _ => true)).m_millisecondsPerFrame
              - (((10 : Nat) : ℚ) - (playing (fun _ => true)).m_nextFrameTime)) := by
  have hs := playing_eq (fun _ => true)
  have hR := Render_of_frame (bgDecoder (fun _ => true) 640 360) 0 10
    (playing (fun _ => true)) { width := 1280, height := 720, frame := none } 0 ⟨true, 1⟩
    (by rw [playing, hs]) (by rw [playing, hs]; norm_num)
    (by rw [playing, hs]; simp [bgDecoder, stubDecoder])
  rw [playing, hs] at hR ⊢
  refine ⟨rfl, by norm_num, by simp [bgDecoder, stubDecoder], _, hR, ?_, ?_⟩
  · simp [drawQuad]
  · simp [drawQuad]
    norm_num

/-- Claim C10, amended: on a `Render` tick with an allocated texture at a clock value
`now ≥ nextFrameDueAt` on which the decoder produces a frame at the first request, the new
due time is `now + framePeriod - (now - nextFrameDueAt)`, which equals
`nextFrameDueAt + framePeriod`: the due time advances by exactly one frame period, whatever
the lateness of the tick. -/
theorem due_time_advances_by_period (dec : FFmpegVideoDecoder σ) (fuel now : Nat)
    (p : SimpleVideoPlayer σ) (tex : CTexture) (i : Nat) (d : σ)
    (htex : p.m_texture = some tex) (hdue : p.m_nextFrameTime ≤ (now : ℚ))
    (hframe : dec.nextFrame p.m_decoder = (some i, d)) :
    ∃ q, Render dec (fuel + 1) now p = some q
      ∧ q.m_nextFrameTime
          = (now : ℚ) + p.m_millisecondsPerFrame - ((now : ℚ) - p.m_nextFrameTime)
      ∧ q.m_nextFrameTime = p.m_nextFrameTime + p.m_millisecondsPerFrame := by
  refine ⟨_, Render_of_frame dec fuel now p tex i d htex hdue hframe, rfl, ?_⟩
  simp only [drawQuad]
  ring

/-- Claim C10, amended, at a concrete input: the tick at clock 10 on a playing player. -/
theorem due_time_advances_by_period_witness :
    ∃ q, Render (bgDecoder (fun _ => true) 640 360) (0 + 1) 10 (playing (fun _ => true)) = some q
      ∧ q.m_nextFrameTime
          = ((10 : Nat) : ℚ) + (playing (fun _ => true)).m_millisecondsPerFrame
              - (((10 : Nat) : ℚ) - (playing (fun _ => true)).m_nextFrameTime)
      ∧ q.m_nextFrameTime = (playing (fun _ => true)).m_nextFrameTime
          + (playing (fun _ => true)).m_millisecondsPerFrame := by
  have hs := playing_eq (fun _ => true)
  exact due_time_advances_by_period (bgDecoder (fun _ => true) 640 360) 0 10
    (playing (fun _ => true)) { width := 1280, height := 720, frame := none } 0 ⟨true, 1⟩
    (by rw [playing, hs]) (by rw [playing, hs]; norm_num)
    (by rw [playing, hs]; simp [bgDecoder, stubDecoder])

end GUIVideoBackground
